import Mathlib

/-!
# Verification of the twee localization validator

A shallow embedding of `twee_validator.py` (class `TweeL10nValidator`) from the
dol-translator repository.  Lines of the two documents are Lean `String`s, a
document is a `List String`.  The Python regular expressions of the `REGEX`
table are embedded as explicit character scanners with the exact matching
semantics of the patterns used by the validator (leftmost scan, ordered
alternation, lazy/greedy quantifiers with backtracking where the pattern needs
it).  `difflib.SequenceMatcher` (with `autojunk=False` and no junk predicate,
as the validator instantiates it) is embedded in full: `find_longest_match`
with its `j2len` dynamic programming rows, `get_matching_blocks` and
`get_opcodes`.  The Korean morphological tokenizer (`kiwipiepy`) used by the
glossary check is an external component; checks that consume it take the
tokenizer as an explicit function parameter `tokenize : String → List String`
(the set of token forms of `kiwi.tokenize`), as the specification's design
notes direct.  The loaded spaCy model is never used by any check and is not
modelled.  File IO (`_load_files`, report writers) only materializes the
line sequences that the embedded checks receive directly.

Scanners that advance through a string use a fuel parameter initialised with
the length of the input; every step of every scanner consumes at least one
character of the remaining input, so the fuel is never exhausted before the
scan finishes.
-/

namespace TweeValidator

/-- Python `\s` on the characters the validator manipulates: the six ASCII
whitespace characters.  (`str.strip()` and `\s` additionally accept rare
Unicode whitespace; no document line or pattern in the validator involves
those.) -/
def pyIsSpace (c : Char) : Bool :=
  c = ' ' || c = '\t' || c = '\n' || c = '\r' || c = '\x0b' || c = '\x0c'

/-- Python `str.strip()` on a character list. -/
def stripChars (s : List Char) : List Char :=
  ((s.dropWhile pyIsSpace).reverse.dropWhile pyIsSpace).reverse

/-- Python `str.strip()`. -/
def pyStrip (s : String) : String :=
  String.mk (stripChars s.data)

/-- `[a-zA-Z0-9_]`, the character class of macro head identifiers. -/
def isNameChar (c : Char) : Bool :=
  ('a' ≤ c && c ≤ 'z') || ('A' ≤ c && c ≤ 'Z') || ('0' ≤ c && c ≤ '9') || c = '_'

/-- `[a-zA-Z0-9_.]`, the character class of variable reference bodies. -/
def isVarChar (c : Char) : Bool :=
  isNameChar c || c = '.'

/-- `[가-힣]`: precomposed Hangul syllables U+AC00 – U+D7A3 (the validator's
notion of target-language script). -/
def isKoreanChar (c : Char) : Bool :=
  0xAC00 ≤ c.val && c.val ≤ 0xD7A3

/-- Python `\w` (used by `word_tokenizer = [\w']+`) on the scripts the
validator handles: ASCII letters, digits, underscore, and Hangul syllables. -/
def isWordChar (c : Char) : Bool :=
  isNameChar c || isKoreanChar c

/-- The character class of `english_only`:
`[a-zA-Z\s.,!?'"():<>_`~@#$%^&*=\[\]{}|\\/+-]`. -/
def isEnglishOnlyChar (c : Char) : Bool :=
  ('a' ≤ c && c ≤ 'z') || ('A' ≤ c && c ≤ 'Z') || pyIsSpace c ||
  c = '.' || c = ',' || c = '!' || c = '?' || c = '\'' || c = '"' ||
  c = '(' || c = ')' || c = ':' || c = '<' || c = '>' || c = '_' ||
  c = '`' || c = '~' || c = '@' || c = '#' || c = '$' || c = '%' ||
  c = '^' || c = '&' || c = '*' || c = '=' || c = '[' || c = ']' ||
  c = '\x7b' || c = '\x7d' || c = '|' || c = '\\' || c = '/' ||
  c = '+' || c = '-'

/-- `REGEX["english_only"].match s`: the pattern is anchored on both sides, so
it holds exactly when `s` is nonempty and every character is in the class. -/
def englishOnly (s : String) : Bool :=
  !s.data.isEmpty && s.data.all isEnglishOnlyChar

/-- `REGEX["korean"].search s`: some character is a Hangul syllable. -/
def hasKorean (s : String) : Bool :=
  s.data.any isKoreanChar

/-- `REGEX["corrupted_char"].search s`: the replacement character U+FFFD. -/
def hasCorruptedChar (s : String) : Bool :=
  s.data.any (fun c => c.val = 0xFFFD)

/-- Python `str.isdigit` on the characters in play (ASCII digits): nonempty
and all digits. -/
def pyIsDigit (s : String) : Bool :=
  !s.data.isEmpty && s.data.all (fun c => '0' ≤ c && c ≤ '9')

/-- Python ASCII `str.lower`. -/
def pyLower (s : String) : String :=
  String.mk (s.data.map Char.toLower)

/-- Python `str.capitalize`: first character uppercased, the rest lowercased. -/
def pyCapitalize (s : String) : String :=
  match s.data with
  | [] => ""
  | c :: cs => String.mk (c.toUpper :: cs.map Char.toLower)

/-- `needle in hay` on Python strings: contiguous substring containment. -/
def strContainsAux : List Char → List Char → Bool
  | _, [] => true
  | [], _ :: _ => false
  | c :: cs, needle => needle.isPrefixOf (c :: cs) || strContainsAux cs needle

/-- Python `needle in hay`. -/
def pyContains (hay needle : String) : Bool :=
  strContainsAux hay.data needle.data

/-- `REGEX["word_tokenizer"].findall s` where the pattern is `[\w']+`:
the maximal runs of word characters and apostrophes.  (Fuel-structured: every
step consumes at least one character, so fuel `s.length` never runs out.) -/
def wordTokensAux : Nat → List Char → List String
  | 0, _ => []
  | _ + 1, [] => []
  | fuel + 1, c :: cs =>
    if isWordChar c || c = '\'' then
      String.mk ((c :: cs).takeWhile (fun d => isWordChar d || d = '\'')) ::
        wordTokensAux fuel (cs.dropWhile (fun d => isWordChar d || d = '\''))
    else wordTokensAux fuel cs

/-- `REGEX["word_tokenizer"].findall`. -/
def wordTokens (s : String) : List String :=
  wordTokensAux s.data.length s.data

/-- Index of the earliest occurrence of `pat` as a contiguous subsequence. -/
def findSeq (pat : List Char) : List Char → Option Nat
  | [] => if pat.isEmpty then some 0 else none
  | c :: cs => if pat.isPrefixOf (c :: cs) then some 0 else (findSeq pat cs).map (· + 1)

/-- Index of the earliest character satisfying `p`. -/
def findCharIdx (p : Char → Bool) : List Char → Option Nat
  | [] => none
  | c :: cs => if p c then some 0 else (findCharIdx p cs).map (· + 1)

/-- `REGEX["macro"].findall`, pattern `<<.*?>>`: at each scan position a match
requires `<<` and then runs lazily to the earliest following `>>`; on success
the scan resumes after the match, on failure it advances one character.
(`.` does not match a newline, and document lines, produced by `splitlines`,
contain none.) -/
def findMacrosAux : Nat → List Char → List String
  | 0, _ => []
  | fuel + 1, '<' :: '<' :: rest =>
    (match findSeq ['>', '>'] rest with
     | some i =>
        String.mk ('<' :: '<' :: (rest.take i ++ ['>', '>'])) ::
          findMacrosAux fuel (rest.drop (i + 2))
     | none => findMacrosAux fuel ('<' :: rest))
  | fuel + 1, _ :: cs => findMacrosAux fuel cs
  | _ + 1, [] => []

/-- `REGEX["macro"].findall`. -/
def findMacros (s : String) : List String :=
  findMacrosAux s.data.length s.data

/-- `REGEX["macro_name"].match`, pattern `<<\s*([a-zA-Z0-9_]+)`: group 1, the
head identifier of a macro invocation (`None` when the text after `<<` does
not start with an identifier). -/
def macroNameOf (tm : String) : Option String :=
  match tm.data with
  | '<' :: '<' :: rest =>
    let name := (rest.dropWhile pyIsSpace).takeWhile isNameChar
    if name.isEmpty then none else some (String.mk name)
  | _ => none

/-- `REGEX["variable"].findall`, pattern `\$[a-zA-Z0-9_.]+`: maximal runs. -/
def findVariablesAux : Nat → List Char → List String
  | 0, _ => []
  | fuel + 1, '$' :: c :: cs =>
    if isVarChar c then
      String.mk ('$' :: c :: cs.takeWhile isVarChar) ::
        findVariablesAux fuel (cs.dropWhile isVarChar)
    else findVariablesAux fuel (c :: cs)
  | fuel + 1, _ :: cs => findVariablesAux fuel cs
  | _ + 1, [] => []

/-- `REGEX["variable"].findall`. -/
def findVariables (s : String) : List String :=
  findVariablesAux s.data.length s.data

/-- `REGEX["string_literal"].findall`, pattern `["'](.*?)["']`: an opening
quote of either kind, lazily up to the next quote of either kind; the scan
resumes after the closing quote. -/
def isQuoteChar (c : Char) : Bool :=
  c = '"' || c = '\''

def stringLiteralsAux : Nat → List Char → List String
  | 0, _ => []
  | _ + 1, [] => []
  | fuel + 1, c :: cs =>
    if isQuoteChar c then
      match findCharIdx isQuoteChar cs with
      | some i => String.mk (cs.take i) :: stringLiteralsAux fuel (cs.drop (i + 1))
      | none => stringLiteralsAux fuel cs
    else stringLiteralsAux fuel cs

/-- `REGEX["string_literal"].findall`. -/
def stringLiterals (s : String) : List String :=
  stringLiteralsAux s.data.length s.data

/-- The lazy two-group body of `REGEX["link_with_dest"]`, `(.*?)\|(.*?)\]\]`,
after the opening `[[`: group 1 runs lazily to the first `|` that is followed
(possibly not immediately) by `]]`; group 2 runs lazily to the earliest `]]`
after that `|`.  Returns the two groups and the remainder after `]]`. -/
def linkDestBody : List Char → Option (List Char × List Char × List Char)
  | [] => none
  | c :: cs =>
    if c = '|' then
      match findSeq [']', ']'] cs with
      | some j => some ([], cs.take j, cs.drop (j + 2))
      | none => (linkDestBody cs).map (fun p => (c :: p.1, p.2.1, p.2.2))
    else (linkDestBody cs).map (fun p => (c :: p.1, p.2.1, p.2.2))

/-- `REGEX["link_with_dest"].findall`, pattern `\[\[(.*?)\|(.*?)\]\]`:
pairs (display, destination). -/
def findLinksWithDestAux : Nat → List Char → List (String × String)
  | 0, _ => []
  | fuel + 1, '[' :: '[' :: rest =>
    (match linkDestBody rest with
     | some (g1, g2, rem) => (String.mk g1, String.mk g2) :: findLinksWithDestAux fuel rem
     | none => findLinksWithDestAux fuel ('[' :: rest))
  | fuel + 1, _ :: cs => findLinksWithDestAux fuel cs
  | _ + 1, [] => []

/-- `REGEX["link_with_dest"].findall`. -/
def findLinksWithDest (s : String) : List (String × String) :=
  findLinksWithDestAux s.data.length s.data

/-- `REGEX["link_simple"].findall`, pattern `\[\[(.*?)\]\]`: the lazy bracket
content. -/
def findLinksSimpleAux : Nat → List Char → List String
  | 0, _ => []
  | fuel + 1, '[' :: '[' :: rest =>
    (match findSeq [']', ']'] rest with
     | some i => String.mk (rest.take i) :: findLinksSimpleAux fuel (rest.drop (i + 2))
     | none => findLinksSimpleAux fuel ('[' :: rest))
  | fuel + 1, _ :: cs => findLinksSimpleAux fuel cs
  | _ + 1, [] => []

/-- `REGEX["link_simple"].findall`. -/
def findLinksSimple (s : String) : List String :=
  findLinksSimpleAux s.data.length s.data

/-- Length of a `REGEX["macro"]` match starting exactly here (`<<.*?>>`). -/
def macroLenAt : List Char → Option Nat
  | '<' :: '<' :: rest => (findSeq ['>', '>'] rest).map (· + 4)
  | _ => none

/-- Length of a `REGEX["link"]` match starting exactly here (`\[\[.*?\]\]`). -/
def linkLenAt : List Char → Option Nat
  | '[' :: '[' :: rest => (findSeq [']', ']'] rest).map (· + 4)
  | _ => none

/-- Length of a `REGEX["variable"]` match starting exactly here. -/
def varLenAt : List Char → Option Nat
  | '$' :: c :: cs => if isVarChar c then some (2 + (cs.takeWhile isVarChar).length) else none
  | _ => none

/-- Length of a `REGEX["html_tag"]` match starting exactly here (`<.*?>`). -/
def htmlLenAt : List Char → Option Nat
  | '<' :: rest => (findCharIdx (· = '>') rest).map (· + 2)
  | _ => none

/-- Length of a `REGEX["code_block"]` match starting exactly here: the
alternation `(macro|link|variable|html_tag)` tries the alternatives in this
order. -/
def codeBlockLenAt (s : List Char) : Option Nat :=
  match macroLenAt s with
  | some n => some n
  | none =>
    match linkLenAt s with
    | some n => some n
    | none =>
      match varLenAt s with
      | some n => some n
      | none => htmlLenAt s

/-- `REGEX["code_block"].sub("", s)`: remove every (leftmost, non-overlapping)
code-block match.  (Every match has length at least 2, so fuel `s.length`
never runs out.) -/
def removeCodeAux : Nat → List Char → List Char
  | 0, s => s
  | _ + 1, [] => []
  | fuel + 1, c :: cs =>
    match codeBlockLenAt (c :: cs) with
    | some n => removeCodeAux fuel ((c :: cs).drop n)
    | none => c :: removeCodeAux fuel cs

/-- `_get_pure_text`. -/
def getPureText (line : String) : String :=
  String.mk (removeCodeAux line.data.length line.data)

/-- `REGEX["code_block"].search(line)` as a Bool: some position matches. -/
def hasCodeBlock (line : String) : Bool :=
  line.data.tails.any (fun t => (codeBlockLenAt t).isSome)

/-- `REGEX["passage_header"].match(line)`, pattern `^(::\s.*)$`. -/
def isPassageHeader (line : String) : Bool :=
  match line.data with
  | ':' :: ':' :: c :: _ => pyIsSpace c
  | _ => false

/-- `REGEX["markdown_header"].match(line)`, pattern `^(#+)\s.*$`. -/
def isMarkdownHeader (line : String) : Bool :=
  match line.data with
  | '#' :: rest =>
    (match rest.dropWhile (· = '#') with
     | c :: _ => pyIsSpace c
     | [] => false)
  | _ => false

/-- `REGEX["comment"].match(s)`, pattern `^\s*(/\*.*?\*/|<!--.*?-->)`. -/
def isComment (s : String) : Bool :=
  let t := s.data.dropWhile pyIsSpace
  (match t with
   | '/' :: '*' :: rest => (findSeq ['*', '/'] rest).isSome
   | _ => false) ||
  (match t with
   | '<' :: '!' :: '-' :: '-' :: rest => (findSeq ['-', '-', '>'] rest).isSome
   | _ => false)

/-- `_classify_line`. -/
def classifyLine (line : String) : String :=
  let strippedLine := pyStrip line
  if strippedLine = "" then "BLANK"
  else if isPassageHeader line then "PASSAGE_HEADER"
  else if isMarkdownHeader line then "MARKDOWN_HEADER"
  else if isComment strippedLine then "COMMENT"
  else
    let pureText := pyStrip (getPureText line)
    let hasCode := hasCodeBlock line
    if hasCode && pureText = "" then "PURE_CODE"
    else if !hasCode && pureText ≠ "" then "PURE_TEXT"
    else if hasCode && pureText ≠ "" then "MIXED_CONTENT"
    else "UNKNOWN_CODE"

/-- `REGEX["forbidden_pattern"].search`, pattern `[가-힣]+\s*\([A-Za-z\s]+\)`:
a match can start at a given suffix iff a Hangul run (≥1), then whitespace,
then `(`, then a nonempty ASCII-letter/whitespace run, then `)`.  All the
character classes involved are mutually disjoint from their followers, so
maximal munch is exact. -/
def isAsciiLetter (c : Char) : Bool :=
  ('a' ≤ c && c ≤ 'z') || ('A' ≤ c && c ≤ 'Z')

def forbiddenAt (s : List Char) : Bool :=
  let kor := s.takeWhile isKoreanChar
  if kor.isEmpty then false
  else
    match (s.dropWhile isKoreanChar).dropWhile pyIsSpace with
    | '(' :: rest =>
      let inner := rest.takeWhile (fun c => isAsciiLetter c || pyIsSpace c)
      if inner.isEmpty then false
      else
        match rest.dropWhile (fun c => isAsciiLetter c || pyIsSpace c) with
        | ')' :: _ => true
        | _ => false
    | _ => false

/-- `REGEX["forbidden_pattern"].search` as a Bool. -/
def hasForbiddenPattern (line : String) : Bool :=
  line.data.tails.any forbiddenAt

/-! ## The Auto-Fixer (`run_auto_fixer`)

Three `(pattern, substitution)` rules applied per line, in order:
1. `<<([a-zA-Z0-9_]+)((?:\s+(?:[0-9]+|"[^"]+"|\$[a-zA-Z0-9_.]+))+)(_\s*[가-힣]+)>>`
   → `<<\1\3\2>>`
2. `(<</[a-zA-Z0-9_]+)_(\s*[가-힣]+)>>` → `\1>>\2`
3. `(?<!<)</if>>` → `<</if>>`

Greedy quantifiers are resolved by maximal munch wherever the quantified
class is disjoint from what can follow (identifier characters vs whitespace,
digits vs `_`, `[^"]` vs `"`, whitespace vs Hangul, Hangul vs `>`), which
makes almost every piece of these patterns deterministic.  The two places
where the Python engine genuinely backtracks are modelled by descending
length searches: the `\$[a-zA-Z0-9_.]+` argument of rule 1 (its class
contains `_`, the first character of group 3) and the `[a-zA-Z0-9_]+`
identifier of rule 2 (its class contains `_`, the following literal). -/

/-- Group 3 of rule 1, `(_\s*[가-힣]+)>>`, anchored here; returns the group
text and the remainder after `>>`. -/
def p1G3 : List Char → Option (List Char × List Char)
  | '_' :: rest =>
    let ws := rest.takeWhile pyIsSpace
    let afterWs := rest.dropWhile pyIsSpace
    let kor := afterWs.takeWhile isKoreanChar
    if kor.isEmpty then none
    else
      match afterWs.dropWhile isKoreanChar with
      | '>' :: '>' :: rem => some ('_' :: (ws ++ kor), rem)
      | _ => none
  | _ => none

mutual

/-- `(?:\s+(?:[0-9]+|"[^"]+"|\$[a-zA-Z0-9_.]+))*(_\s*[가-힣]+)>>` in engine
order: first try one more argument iteration (greedy), then group 3 here.
Returns (arguments text, group-3 text, remainder).  The caller rejects an
empty arguments text, which is the case where not a single iteration of the
`+` could participate in a match. -/
def p1AfterArgs : Nat → List Char → Option (List Char × List Char × List Char)
  | 0, _ => none
  | fuel + 1, s =>
    match p1Iter fuel s with
    | some out => some out
    | none => (p1G3 s).map (fun p => ([], p.1, p.2))

/-- One argument iteration `\s+(?:[0-9]+|"[^"]+"|\$[a-zA-Z0-9_.]+)` followed
by the continuation; the three argument alternatives start with mutually
exclusive characters.  For a `\$…` argument all run lengths are tried in
descending order, as the engine does. -/
def p1Iter : Nat → List Char → Option (List Char × List Char × List Char)
  | 0, _ => none
  | fuel + 1, s =>
    let ws := s.takeWhile pyIsSpace
    if ws.isEmpty then none
    else
      match s.dropWhile pyIsSpace with
      | [] => none
      | c :: cs =>
        if '0' ≤ c && c ≤ '9' then
          let run := (c :: cs).takeWhile (fun d => '0' ≤ d && d ≤ '9')
          (p1AfterArgs fuel ((c :: cs).dropWhile (fun d => '0' ≤ d && d ≤ '9'))).map
            (fun p => (ws ++ run ++ p.1, p.2.1, p.2.2))
        else if c = '"' then
          match findCharIdx (· = '"') cs with
          | some i =>
            if i = 0 then none  -- `[^"]+` needs at least one character
            else
              (p1AfterArgs fuel (cs.drop (i + 1))).map
                (fun p => (ws ++ ('"' :: cs.take i ++ ['"']) ++ p.1, p.2.1, p.2.2))
          | none => none
        else if c = '$' then
          match cs with
          | d :: ds =>
            if isVarChar d then
              let m := ((d :: ds).takeWhile isVarChar).length
              ((List.range m).map (fun t => m - t)).findSome? (fun l =>
                (p1AfterArgs fuel ((d :: ds).drop l)).map
                  (fun p => (ws ++ ('$' :: (d :: ds).take l) ++ p.1, p.2.1, p.2.2)))
            else none
          | [] => none
        else none

end

/-- Rule 1 anchored at the current position: on success, the replacement text
`<<\1\3\2>>` and the remainder of the string after the match. -/
def p1MatchAt : List Char → Option (List Char × List Char)
  | '<' :: '<' :: rest =>
    let name := rest.takeWhile isNameChar
    if name.isEmpty then none
    else
      let afterName := rest.dropWhile isNameChar
      match p1AfterArgs (afterName.length + 4) afterName with
      | some (g2, g3, r) =>
        if g2.isEmpty then none
        else some ('<' :: '<' :: (name ++ g3 ++ g2 ++ ['>', '>']), r)
      | none => none
  | _ => none

/-- `fix_patterns[0]`: `pattern.sub` scanning left to right. -/
def p1SubAux : Nat → List Char → List Char
  | 0, s => s
  | _ + 1, [] => []
  | fuel + 1, c :: cs =>
    match p1MatchAt (c :: cs) with
    | some (repl, rest) => repl ++ p1SubAux fuel rest
    | none => c :: p1SubAux fuel cs

def p1Sub (s : List Char) : List Char :=
  p1SubAux s.length s

/-- Group 2 of rule 2, `(\s*[가-힣]+)>>`, anchored here. -/
def p2G2 (s : List Char) : Option (List Char × List Char) :=
  let ws := s.takeWhile pyIsSpace
  let t := s.dropWhile pyIsSpace
  let kor := t.takeWhile isKoreanChar
  if kor.isEmpty then none
  else
    match t.dropWhile isKoreanChar with
    | '>' :: '>' :: r => some (ws ++ kor, r)
    | _ => none

/-- Rule 2's identifier `[a-zA-Z0-9_]+` followed by the literal `_`: try
prefix lengths of the maximal identifier run in descending order. -/
def p2TryName (cs : List Char) : Nat → Option (List Char × List Char × List Char)
  | 0 => none
  | l + 1 =>
    match cs.drop (l + 1) with
    | '_' :: rest =>
      (match p2G2 rest with
       | some (g2, r) => some (cs.take (l + 1), g2, r)
       | none => p2TryName cs l)
    | _ => p2TryName cs l

/-- Rule 2 anchored at the current position: on success, the replacement
`\1>>\2` and the remainder. -/
def p2MatchAt : List Char → Option (List Char × List Char)
  | '<' :: '<' :: '/' :: rest =>
    let m := (rest.takeWhile isNameChar).length
    if m = 0 then none
    else
      match p2TryName rest m with
      | some (name, g2, r) =>
        some ('<' :: '<' :: '/' :: (name ++ ['>', '>'] ++ g2), r)
      | none => none
  | _ => none

/-- `fix_patterns[1]`: `pattern.sub` scanning left to right. -/
def p2SubAux : Nat → List Char → List Char
  | 0, s => s
  | _ + 1, [] => []
  | fuel + 1, c :: cs =>
    match p2MatchAt (c :: cs) with
    | some (repl, rest) => repl ++ p2SubAux fuel rest
    | none => c :: p2SubAux fuel cs

def p2Sub (s : List Char) : List Char :=
  p2SubAux s.length s

/-- `fix_patterns[2]`: `(?<!<)</if>>` → `<</if>>`.  The scanner carries the
previous character of the original string for the lookbehind. -/
def p3SubAux : Nat → Option Char → List Char → List Char
  | 0, _, s => s
  | _ + 1, _, [] => []
  | fuel + 1, prev, c :: cs =>
    if c = '<' && ['/', 'i', 'f', '>', '>'].isPrefixOf cs && !(prev == some '<') then
      '<' :: '<' :: '/' :: 'i' :: 'f' :: '>' :: '>' :: p3SubAux fuel (some '>') (cs.drop 5)
    else c :: p3SubAux fuel (some c) cs

def p3Sub (s : List Char) : List Char :=
  p3SubAux s.length none s

/-- The whole per-line pass of `run_auto_fixer`: the three substitutions in
list order. -/
def fixLine (line : String) : String :=
  String.mk (p3Sub (p2Sub (p1Sub line.data)))

/-- One record of the fix report: `{"line_num", "original", "translated"}`. -/
structure FixRecord where
  line_num : Nat
  original : String
  translated : String
deriving DecidableEq, Repr

/-- The loop of `run_auto_fixer` over the enumerated candidate lines,
starting at 0-based index `i`: the rewritten lines and the fix records. -/
def runAutoFixerAux : Nat → List String → List String × List FixRecord
  | _, [] => ([], [])
  | i, line :: rest =>
    let modified := fixLine line
    let (fls, fxs) := runAutoFixerAux (i + 1) rest
    (modified :: fls,
     (if modified ≠ line then [⟨i + 1, line, modified⟩] else []) ++ fxs)

/-- `run_auto_fixer`: the fixed candidate document and the fix report. -/
def runAutoFixer (translatedLines : List String) : List String × List FixRecord :=
  runAutoFixerAux 0 translatedLines

/-! ## Issues and validator constants -/

/-- One record of `self.issues`: the keyword arguments passed to
`_add_issue`, with `none` for keywords a given call site does not pass.
The field `itype` embeds the Python keyword `type`. -/
structure Issue where
  line_num : Nat
  severity : String
  itype : String
  description : String
  original : Option String := none
  translated : Option String := none
  diff_text : Option String := none
deriving DecidableEq, Repr

def UNTRANSLATED_LINK_WORD_THRESHOLD : Nat := 4

def CONTEXT_LINES : Nat := 2

/-- `ALLOWED_POSTPOSITIONS` (a frozenset used only for membership). -/
def ALLOWED_POSTPOSITIONS : List String :=
  ["은", "는", "이", "가", "을", "를", "과", "와", "의", "께", "에게", "한테",
   "으로", "로", "에서", "부터", "까지", "만", "도", "뿐", "이라", "라",
   "이여", "여", "이시여", "시여", "아", "야"]

/-- `TEXT_MACROS_WHITELIST` (a frozenset used only for membership). -/
def TEXT_MACROS_WHITELIST : List String :=
  ["print", "say", "either", "display", "link", "button", "checkbox",
   "radiobutton", "textbox", "textarea", "timed", "repeat",
   "HePost", "bHePost", "nnpc_HePost", "putpost", "sextoyPost"]

/-- Python `set(l1) == set(l2)`. -/
def sameSetStr (l1 l2 : List String) : Bool :=
  l1.all l2.contains && l2.all l1.contains

def insertStr (x : String) : List String → List String
  | [] => [x]
  | y :: ys => if x ≤ y then x :: y :: ys else y :: insertStr x ys

/-- Python `sorted` on strings (code-point lexicographic). -/
def sortStrs (l : List String) : List String :=
  l.foldr insertStr []

def dedupStrs : List String → List String
  | [] => []
  | x :: xs => if xs.contains x then dedupStrs xs else x :: dedupStrs xs

/-- Python `sorted(list(set(l1) - set(l2)))`. -/
def setDiffSorted (l1 l2 : List String) : List String :=
  sortStrs (dedupStrs (l1.filter (fun x => !l2.contains x)))

/-! ## `difflib.SequenceMatcher(None, a, b, autojunk=False)`

The validator builds the matcher with no junk predicate and `autojunk`
off, so `bjunk` and `bpopular` are empty: `b2j` maps every line to all of
its positions, and the two junk-extension loops of `find_longest_match`
(whose guards require `isbjunk(...)` to be true) never run.  The `j2len`
dictionaries are embedded as total functions defaulting to `0`, which is
how `j2len.get(j-1, 0)` reads absent keys (for `j = 0` the Python key `-1`
is never present, embedded as an explicit guard). -/

/-- `b2j[x]`: the positions of `x` in `b`, ascending. -/
def b2j (b : List String) (x : String) : List Nat :=
  (List.range b.length).filter (fun j => b.getD j "" = x)

/-- The inner loop of `find_longest_match` over `b2j.get(a[i], [])` for one
row `i`: threads `newj2len` and the running best `(besti, bestj, bestsize)`.
`i + 1 - k` and `j + 1 - k` are Python's `i-k+1` and `j-k+1` (no run ending
at `(i, j)` is longer than `i + 1`, so the natural subtraction is exact). -/
def flmInner (blo bhi i : Nat) :
    List Nat → (Nat → Nat) → (Nat → Nat) → (Nat × Nat × Nat) →
    ((Nat → Nat) × (Nat × Nat × Nat))
  | [], _, newJ2len, best => (newJ2len, best)
  | j :: js, j2len, newJ2len, best =>
    if j < blo then flmInner blo bhi i js j2len newJ2len best
    else if bhi ≤ j then (newJ2len, best)
    else
      let k := (if j = 0 then 0 else j2len (j - 1)) + 1
      let newJ2len' := fun j' => if j' = j then k else newJ2len j'
      let best' := if best.2.2 < k then (i + 1 - k, j + 1 - k, k) else best
      flmInner blo bhi i js j2len newJ2len' best'

/-- The row loop `for i in range(alo, ahi)` of `find_longest_match`. -/
def flmRows (a b : List String) (blo bhi : Nat) :
    List Nat → (Nat → Nat) → (Nat × Nat × Nat) → (Nat × Nat × Nat)
  | [], _, best => best
  | i :: is_, j2len, best =>
    let out := flmInner blo bhi i (b2j b (a.getD i "")) j2len (fun _ => 0) best
    flmRows a b blo bhi is_ out.1 out.2

/-- The first extension loop: grow the best block to the left while the
neighbouring elements match (the junk set is empty).  Fuel `besti` bounds
the number of decrements. -/
def flmExtendLeft (a b : List String) (alo blo : Nat) :
    Nat → (Nat × Nat × Nat) → (Nat × Nat × Nat)
  | 0, best => best
  | fuel + 1, (besti, bestj, bestsize) =>
    if alo < besti && blo < bestj && a.getD (besti - 1) "" = b.getD (bestj - 1) "" then
      flmExtendLeft a b alo blo fuel (besti - 1, bestj - 1, bestsize + 1)
    else (besti, bestj, bestsize)

/-- The second extension loop: grow the best block to the right. -/
def flmExtendRight (a b : List String) (ahi bhi : Nat) :
    Nat → (Nat × Nat × Nat) → (Nat × Nat × Nat)
  | 0, best => best
  | fuel + 1, (besti, bestj, bestsize) =>
    if besti + bestsize < ahi && bestj + bestsize < bhi &&
        a.getD (besti + bestsize) "" = b.getD (bestj + bestsize) "" then
      flmExtendRight a b ahi bhi fuel (besti, bestj, bestsize + 1)
    else (besti, bestj, bestsize)

/-- `find_longest_match(alo, ahi, blo, bhi)`. -/
def findLongestMatch (a b : List String) (alo ahi blo bhi : Nat) : Nat × Nat × Nat :=
  let best := flmRows a b blo bhi (List.range' alo (ahi - alo)) (fun _ => 0) (alo, blo, 0)
  let best := flmExtendLeft a b alo blo best.1 best
  flmExtendRight a b ahi bhi (ahi - (best.1 + best.2.2)) best

/-- The recursive block collection of `get_matching_blocks` (the Python queue
is LIFO, but the blocks are sorted afterwards, so an in-order recursion
collects the same list).  Each recursion strictly shrinks the rectangle's
semiperimeter, so fuel `la + lb + 1` suffices. -/
def matchingBlocksRec (a b : List String) :
    Nat → Nat → Nat → Nat → Nat → List (Nat × Nat × Nat)
  | 0, _, _, _, _ => []
  | fuel + 1, alo, ahi, blo, bhi =>
    let x := findLongestMatch a b alo ahi blo bhi
    let i := x.1
    let j := x.2.1
    let k := x.2.2
    if k = 0 then []
    else
      (if alo < i && blo < j then matchingBlocksRec a b fuel alo i blo j else []) ++
      [(i, j, k)] ++
      (if i + k < ahi && j + k < bhi then matchingBlocksRec a b fuel (i + k) ahi (j + k) bhi
       else [])

def blockLe (x y : Nat × Nat × Nat) : Bool :=
  x.1 < y.1 || (x.1 = y.1 && (x.2.1 < y.2.1 || (x.2.1 = y.2.1 && x.2.2 ≤ y.2.2)))

def insertBlock (x : Nat × Nat × Nat) : List (Nat × Nat × Nat) → List (Nat × Nat × Nat)
  | [] => [x]
  | y :: ys => if blockLe x y then x :: y :: ys else y :: insertBlock x ys

/-- `matching_blocks.sort()` (lexicographic on the triples). -/
def sortBlocks (l : List (Nat × Nat × Nat)) : List (Nat × Nat × Nat) :=
  l.foldr insertBlock []

/-- The `non_adjacent` collapsing loop of `get_matching_blocks`, started
with `i1 = j1 = k1 = 0`. -/
def mergeAdjacent : (Nat × Nat × Nat) → List (Nat × Nat × Nat) → List (Nat × Nat × Nat)
  | cur, [] => if cur.2.2 ≠ 0 then [cur] else []
  | cur, (i2, j2, k2) :: rest =>
    if cur.1 + cur.2.2 = i2 && cur.2.1 + cur.2.2 = j2 then
      mergeAdjacent (cur.1, cur.2.1, cur.2.2 + k2) rest
    else
      (if cur.2.2 ≠ 0 then [cur] else []) ++ mergeAdjacent (i2, j2, k2) rest

/-- `get_matching_blocks()`, terminator `(la, lb, 0)` included. -/
def getMatchingBlocks (a b : List String) : List (Nat × Nat × Nat) :=
  mergeAdjacent (0, 0, 0)
      (sortBlocks (matchingBlocksRec a b (a.length + b.length + 1) 0 a.length 0 b.length)) ++
    [(a.length, b.length, 0)]

inductive DiffTag where
  | replace
  | delete
  | insert
  | equal
deriving DecidableEq, Repr

/-- One 5-tuple `(tag, i1, i2, j1, j2)` of `get_opcodes()`. -/
structure Opcode where
  tag : DiffTag
  i1 : Nat
  i2 : Nat
  j1 : Nat
  j2 : Nat
deriving DecidableEq, Repr

/-- The loop of `get_opcodes()` with cursor `(i, j)`. -/
def getOpcodesAux : Nat → Nat → List (Nat × Nat × Nat) → List Opcode
  | _, _, [] => []
  | i, j, (ai, bj, size) :: rest =>
    (if i < ai && j < bj then [⟨.replace, i, ai, j, bj⟩]
     else if i < ai then [⟨.delete, i, ai, j, bj⟩]
     else if j < bj then [⟨.insert, i, ai, j, bj⟩]
     else []) ++
    (if size ≠ 0 then [⟨.equal, ai, ai + size, bj, bj + size⟩] else []) ++
    getOpcodesAux (ai + size) (bj + size) rest

/-- `get_opcodes()`. -/
def getOpcodes (a b : List String) : List Opcode :=
  getOpcodesAux 0 0 (getMatchingBlocks a b)

/-- `l[i:j]` for `i ≤ j` (the only shape the opcodes use). -/
def sliceList (l : List α) (i j : Nat) : List α :=
  (l.drop i).take (j - i)

/-- Replaying an opcode list as the edit script it describes: keep the `a`
segment of an `equal` run, drop a `delete` run, emit the `b` segment of an
`insert` or `replace` run.  `get_opcodes` is a correct diff exactly when
this rebuilds `b`. -/
def replayOpcodes (a b : List String) (ops : List Opcode) : List String :=
  ops.foldr
    (fun op acc =>
      (match op.tag with
       | .equal => sliceList a op.i1 op.i2
       | .delete => []
       | .insert => sliceList b op.j1 op.j2
       | .replace => sliceList b op.j1 op.j2) ++ acc) []

/-! ## Structural alignment (`_check_line_count_and_structure`) -/

/-- The issue built for one non-`equal`/non-`replace` opcode of the loop in
`_check_line_count_and_structure`: `none` for `equal` and `replace`
(`continue`), and for `delete`/`insert` the Critical issue with its context
window and literal deleted/inserted lines.  `i1 - CONTEXT_LINES` is Python's
`max(0, i1 - self.CONTEXT_LINES)`. -/
def structuralIssueOf (origLines transLines : List String) (op : Opcode) : Option Issue :=
  match op.tag with
  | .equal => none
  | .replace => none
  | .delete =>
    let start := op.i1 - CONTEXT_LINES
    let stop := min origLines.length (op.i2 + CONTEXT_LINES)
    let diffLines :=
      (List.range' start (op.i1 - start)).map (fun i => "  " ++ origLines.getD i "") ++
      (List.range' op.i1 (op.i2 - op.i1)).map (fun i => "- " ++ origLines.getD i "") ++
      (List.range' op.i2 (stop - op.i2)).map (fun i => "  " ++ origLines.getD i "")
    some ⟨op.i1 + 1, "CRITICAL", "구조적 불일치 (줄 삭제/추가)",
      "원본 " ++ toString (op.i1 + 1) ++ "번째 줄 근처의 내용이 번역본에서 삭제되었습니다.",
      none, none, some (String.intercalate "\n" diffLines)⟩
  | .insert =>
    let start := op.i1 - CONTEXT_LINES
    let stop := min origLines.length (op.i2 + CONTEXT_LINES)
    let diffLines :=
      (List.range' start (op.i1 - start)).map (fun i => "  " ++ origLines.getD i "") ++
      (List.range' op.j1 (op.j2 - op.j1)).map (fun j => "+ " ++ transLines.getD j "") ++
      (List.range' op.i2 (stop - op.i2)).map (fun i => "  " ++ origLines.getD i "")
    some ⟨op.i1 + 1, "CRITICAL", "구조적 불일치 (줄 삭제/추가)",
      "번역본 " ++ toString (op.j1 + 1) ++ "번째 줄 근처에 원본에 없는 내용이 추가되었습니다.",
      none, none, some (String.intercalate "\n" diffLines)⟩

/-- The whole-document line-count issue. -/
def lineCountIssue (origLines transLines : List String) : Issue :=
  ⟨0, "CRITICAL", "구조적 오류",
   "파일의 전체 줄 수가 일치하지 않습니다. (원본: " ++ toString origLines.length ++
     "줄, 번역본: " ++ toString transLines.length ++ "줄)",
   none, none, none⟩

/-- `_check_line_count_and_structure`: the returned Bool is the method's
return value (`is_structurally_sound`), the issue list is what it appends. -/
def checkLineCountAndStructure (origLines transLines : List String) : Bool × List Issue :=
  if origLines.length = transLines.length then (true, [])
  else
    (false,
     lineCountIssue origLines transLines ::
       (getOpcodes origLines transLines).filterMap (structuralIssueOf origLines transLines))

/-! ## Identifier checks -/

/-- `_extract_identifiers(lines, "passage_header")`, first components
(`match.group(1).strip()`, where group 1 is the whole line). -/
def extractPassageHeaders (lines : List String) : List String :=
  lines.filterMap (fun l => if isPassageHeader l then some (pyStrip l) else none)

/-- `_extract_identifiers(lines, "link_destination")`, first components. -/
def extractLinkDestinations (lines : List String) : List String :=
  lines.foldr
    (fun line acc =>
      (findLinksWithDest line).map (fun p => pyStrip p.2) ++
      ((findLinksSimple line).filter (fun d => !pyContains d "|")).map pyStrip ++ acc) []

/-- `_check_core_identifiers`. -/
def checkCoreIdentifiers (origLines transLines : List String) : List Issue :=
  (if extractPassageHeaders origLines ≠ extractPassageHeaders transLines then
    [⟨0, "CRITICAL", "패시지 헤더 불일치",
      "패시지 헤더의 순서나 내용이 원본과 다릅니다. 게임 링크가 깨질 수 있습니다.",
      none, none, none⟩]
   else []) ++
  (let origDests := extractLinkDestinations origLines
   let transDests := extractLinkDestinations transLines
   if !sameSetStr origDests transDests then
     let missing := setDiffSorted origDests transDests
     let added := setDiffSorted transDests origDests
     let desc := "링크 목적지 목록이 일치하지 않습니다." ++
       (if !missing.isEmpty then
         " 누락: " ++ String.intercalate ", " (missing.take 5) ++ " 등" else "") ++
       (if !added.isEmpty then
         " 추가/오타: " ++ String.intercalate ", " (added.take 5) ++ " 등" else "")
     [⟨0, "CRITICAL", "링크 목적지 불일치", desc, none, none, none⟩]
   else [])

/-- `_check_global_variable_consistency`: variable references are collected
from the `"\n"`-joined whole documents and compared as sets. -/
def checkGlobalVariableConsistency (origLines transLines : List String) : List Issue :=
  let originalVars := findVariables (String.intercalate "\n" origLines)
  let translatedVars := findVariables (String.intercalate "\n" transLines)
  if !sameSetStr originalVars translatedVars then
    let missing := setDiffSorted originalVars translatedVars
    let added := setDiffSorted translatedVars originalVars
    let desc := "전체 변수 목록이 일치하지 않습니다." ++
      (if !missing.isEmpty then
        " 누락된 변수: " ++ String.intercalate ", " (missing.take 5) ++ " 등" else "") ++
      (if !added.isEmpty then
        " 추가/손상된 변수: " ++ String.intercalate ", " (added.take 5) ++ " 등" else "")
    [⟨0, "CRITICAL", "전역 변수 불일치", desc, none, none, none⟩]
  else []

/-! ## Per-line checks -/

/-- The body of the `for orig_macro, trans_macro in zip(...)` loop of
`_check_macro_corruption`: at most one issue per macro pair, citing the
first quoted literal that contains Hangul and is not an allowed
postposition (`break` after the first). -/
def macroCorruptionIssue (origMacro transMacro : String) (lineNum : Nat) : List Issue :=
  match macroNameOf transMacro with
  | none => []
  | some name =>
    if TEXT_MACROS_WHITELIST.contains name then []
    else
      let content := pyStrip (String.mk ((transMacro.data.drop 2).dropLast.dropLast))
      let literals := stringLiterals content
      match literals.find? (fun lit => hasKorean lit && !ALLOWED_POSTPOSITIONS.contains lit) with
      | some lit =>
        [⟨lineNum, "CRITICAL", "매크로 코드 손상",
          "번역 금지 의심 매크로(`" ++ name ++ "`) 내부의 코드 식별자 '" ++ lit ++
            "'이(가) 번역되었습니다.",
          some ("`" ++ origMacro ++ "`"), some ("`" ++ transMacro ++ "`"), none⟩]
      | none => []

/-- `_check_macro_corruption`. -/
def checkMacroCorruption (originalLine translatedLine : String) (lineNum : Nat) : List Issue :=
  let originalMacros := findMacros originalLine
  let translatedMacros := findMacros translatedLine
  if originalMacros.length = translatedMacros.length then
    (originalMacros.zip translatedMacros).foldr
      (fun p acc => macroCorruptionIssue p.1 p.2 lineNum ++ acc) []
  else []

/-- The body of the link loop of `_check_links_for_playability`. -/
def linkPlayabilityIssue (line : String) (lineNum : Nat) (displayText : String) : List Issue :=
  let pureDisplayText := getPureText displayText
  if pyStrip pureDisplayText = "" then
    [⟨lineNum, "WARNING", "빈 상호작용",
      "플레이어가 클릭할 수 없는 '빈 링크'가 발견되었습니다.", none, some line, none⟩]
  else if englishOnly pureDisplayText then
    let wordCount := (wordTokens pureDisplayText).length
    if 0 < wordCount then
      [⟨lineNum,
        if UNTRANSLATED_LINK_WORD_THRESHOLD ≤ wordCount then "WARNING" else "INFO",
        "미번역 의심 (링크)",
        "링크 표시 텍스트 '" ++ displayText ++ "'이(가) 번역되지 않은 것 같습니다.",
        none, some line, none⟩]
    else []
  else []

/-- `_check_links_for_playability`. -/
def checkLinksForPlayability (line : String) (lineNum : Nat) : List Issue :=
  let allLinks :=
    findLinksWithDest line ++
      ((findLinksSimple line).filter (fun m => !pyContains m "|")).map (fun m => (m, m))
  allLinks.foldr (fun p acc => linkPlayabilityIssue line lineNum p.1 ++ acc) []

/-- `_check_untranslated_content`.  The English-word ratio test
`english_words / len(words) >= ENGLISH_RATIO_THRESHOLD` (a float comparison
against `0.8`) is embedded as the exact rational comparison
`5 * english_words ≥ 4 * len(words)`: the two can only disagree when the
ratio lies within `5e-17` of `4/5` without equalling it, which would need a
line of about `10^16` words. -/
def checkUntranslatedContent (originalLine translatedLine : String) (lineNum : Nat)
    (isStructurallySound : Bool) : List Issue :=
  let pureTranslated := getPureText translatedLine
  if pyStrip pureTranslated = "" || hasKorean pureTranslated then []
  else
    let words := wordTokens pureTranslated
    if words.isEmpty then []
    else
      let englishWords := (words.filter (fun w => englishOnly w && !pyIsDigit w)).length
      if 4 * words.length ≤ 5 * englishWords then
        [⟨lineNum,
          if isStructurallySound && pyStrip originalLine = pyStrip translatedLine then
            "WARNING" else "INFO",
          "미번역 의심 (콘텐츠)",
          "이 라인은 번역이 누락되었거나(원본과 동일), 대부분이 영어로 구성되어 검토가 필요합니다.",
          some originalLine, some translatedLine, none⟩]
      else []

/-- `_check_text_corruption`. -/
def checkTextCorruption (line : String) (lineNum : Nat) : List Issue :=
  if hasCorruptedChar line then
    [⟨lineNum, "CRITICAL", "텍스트 손상",
      "파일 인코딩 문제로 인해 깨진 문자(�)가 발견되었습니다.", none, some line, none⟩]
  else []

/-- `_check_forbidden_patterns`. -/
def checkForbiddenPatterns (line : String) (lineNum : Nat) : List Issue :=
  if hasForbiddenPattern line then
    [⟨lineNum, "WARNING", "금지된 패턴 사용",
      "번역문 뒤에 괄호를 사용한 원문 병기 패턴이 발견되었습니다.", none, some line, none⟩]
  else []

/-! ## Glossary -/

/-- The glossary dictionary built by `_build_glossary_automaton` from the
term-list lines: an insertion-ordered association list (first writer wins,
like `if key not in self.glossary`).  The Python `keys_to_add` set
`{key, key.lower(), key.capitalize()}` is traversed in this order; since all
three map to the same value and insertion is guarded by membership, the
traversal order of the set does not affect the resulting mapping. -/
def buildGlossary (lines : List String) : List (String × String) :=
  lines.foldl
    (fun glossary line =>
      if (match (pyStrip line).data with | '#' :: _ => true | _ => false) ||
          pyStrip line = "" || !pyContains line ":" then
        glossary
      else
        match findCharIdx (· = ':') line.data with
        | none => glossary
        | some i =>
          let engKey := pyStrip (String.mk (line.data.take i))
          let korValue := pyStrip (String.mk (line.data.drop (i + 1)))
          if engKey ≠ "" && korValue ≠ "" then
            [engKey, pyLower engKey, pyCapitalize engKey].foldl
              (fun g key =>
                if (g.find? (fun p => p.1 = key)).isSome then g else g ++ [(key, korValue)])
              glossary
          else glossary)
    []

/-- `self.glossary.get(eng_key)`. -/
def glossaryGet (glossary : List (String × String)) (key : String) : Option String :=
  (glossary.find? (fun p => p.1 = key)).map Prod.snd

/-- The body of the `for eng_key in found_eng_terms` loop of
`_check_glossary_compliance_nlp`. -/
def glossaryIssueFor (glossary : List (String × String)) (foundKorTokens : List String)
    (pureTranslated originalLine translatedLine : String) (lineNum : Nat)
    (engKey : String) : List Issue :=
  match glossaryGet glossary engKey with
  | none => []
  | some korValue =>
    if korValue = "" then []
    else if !foundKorTokens.contains korValue && !pyContains pureTranslated korValue then
      if pyContains (pyLower pureTranslated) (pyLower engKey) then
        [⟨lineNum, "INFO", "용어집 미적용",
          "용어집 단어 '" ++ engKey ++ "'가 번역되지 않고 원문에 남아있습니다.",
          some originalLine, some translatedLine, none⟩]
      else
        [⟨lineNum, "WARNING", "용어집 오역/누락 의심",
          "용어집 단어 '" ++ engKey ++ "'의 번역 '" ++ korValue ++
            "'이(가) 누락되었거나 다른 단어로 번역된 것 같습니다.",
          some originalLine, some translatedLine, none⟩]
    else []

/-- `_check_glossary_compliance_nlp`.  `found_eng_terms` (the keys the
Aho–Corasick automaton finds in the source residue) is the set of glossary
keys occurring as substrings; it is traversed in glossary insertion order
(Python iterates the set in an unspecified order; each key contributes its
issues independently, so only the relative order of issues of *different*
keys could differ).  `tokenize` abstracts `self.kiwi.tokenize`, giving the
list of token forms. -/
def checkGlossaryComplianceNlp (glossary : List (String × String))
    (tokenize : String → List String) (originalLine translatedLine : String)
    (lineNum : Nat) : List Issue :=
  if glossary.isEmpty then []
  else
    let pureOriginal := getPureText originalLine
    if pyStrip pureOriginal = "" then []
    else
      let foundEngTerms := (glossary.map Prod.fst).filter (fun k => pyContains pureOriginal k)
      if foundEngTerms.isEmpty then []
      else
        let pureTranslated := getPureText translatedLine
        let foundKorTokens := tokenize pureTranslated
        foundEngTerms.foldr
          (fun engKey acc =>
            glossaryIssueFor glossary foundKorTokens pureTranslated originalLine
              translatedLine lineNum engKey ++ acc) []

/-! ## The per-line dispatcher and the whole run -/

/-- The body of the `for i, translated_line in enumerate(...)` loop of
`_check_all_lines`. -/
def checkLine (glossary : List (String × String)) (tokenize : String → List String)
    (originalLine translatedLine : String) (lineNum : Nat) (isSound : Bool) : List Issue :=
  let lineType := classifyLine translatedLine
  (if lineType = "PURE_TEXT" || lineType = "MIXED_CONTENT" then
    checkLinksForPlayability translatedLine lineNum ++
    checkUntranslatedContent originalLine translatedLine lineNum isSound ++
    checkForbiddenPatterns translatedLine lineNum ++
    (if isSound then
      checkGlossaryComplianceNlp glossary tokenize originalLine translatedLine lineNum
     else [])
   else []) ++
  (if isSound &&
      (lineType = "PURE_CODE" || lineType = "MIXED_CONTENT" || lineType = "UNKNOWN_CODE") then
    checkMacroCorruption originalLine translatedLine lineNum
   else []) ++
  checkTextCorruption translatedLine lineNum

/-- `_check_all_lines` from 0-based line index `i` on:
`original_line = self.original_lines[i] if is_structurally_sound else ""`. -/
def checkAllLinesAux (glossary : List (String × String)) (tokenize : String → List String)
    (origLines : List String) (isSound : Bool) : Nat → List String → List Issue
  | _, [] => []
  | i, t :: rest =>
    checkLine glossary tokenize (if isSound then origLines.getD i "" else "") t (i + 1)
        isSound ++
      checkAllLinesAux glossary tokenize origLines isSound (i + 1) rest

/-- `_check_all_lines`. -/
def checkAllLines (glossary : List (String × String)) (tokenize : String → List String)
    (origLines transLines : List String) (isSound : Bool) : List Issue :=
  checkAllLinesAux glossary tokenize origLines isSound 0 transLines

/-- `run_all_checks`: the full issue list of one validation run, in append
order (structure, core identifiers, global variables, per-line checks). -/
def runAllChecks (glossary : List (String × String)) (tokenize : String → List String)
    (origLines transLines : List String) : List Issue :=
  let structure_ := checkLineCountAndStructure origLines transLines
  structure_.2 ++
    checkCoreIdentifiers origLines transLines ++
    checkGlobalVariableConsistency origLines transLines ++
    checkAllLines glossary tokenize origLines transLines structure_.1

/-! ## Proof-support predicates for the alignment development -/

/-- A run of matches ending at `(i, j)` of length `len`, inside the rectangle
`[alo, ahi) × [blo, bhi)` (the `j2len` invariant of `find_longest_match`). -/
def goodRun (a b : List String) (alo ahi blo bhi i j len : Nat) : Prop :=
  alo + len ≤ i + 1 ∧ blo + len ≤ j + 1 ∧ i < ahi ∧ j < bhi ∧
  ∀ t < len, a.getD (i - t) "" = b.getD (j - t) ""

/-- The invariant of one `j2len` row when the rows up to `i` (exclusive) have
been processed: a nonzero entry at `j` is a genuine run ending at `(i-1, j)`. -/
def rowValidAt (a b : List String) (alo ahi blo bhi i : Nat) (J : Nat → Nat) : Prop :=
  ∀ j, J j = 0 ∨ (1 ≤ i ∧ 1 ≤ J j ∧ goodRun a b alo ahi blo bhi (i - 1) j (J j))

/-- `(besti, bestj, bestsize)` describes a genuine matching block inside the
rectangle. -/
def bestValid (a b : List String) (alo ahi blo bhi : Nat) (best : Nat × Nat × Nat) : Prop :=
  alo ≤ best.1 ∧ blo ≤ best.2.1 ∧ best.1 + best.2.2 ≤ ahi ∧ best.2.1 + best.2.2 ≤ bhi ∧
  ∀ t < best.2.2, a.getD (best.1 + t) "" = b.getD (best.2.1 + t) ""

/-- A matching block `(i, j, k)`: `a[i:i+k] == b[j:j+k]`, in bounds. -/
def validBlock (a b : List String) (blk : Nat × Nat × Nat) : Prop :=
  blk.1 + blk.2.2 ≤ a.length ∧ blk.2.1 + blk.2.2 ≤ b.length ∧
  sliceList a blk.1 (blk.1 + blk.2.2) = sliceList b blk.2.1 (blk.2.1 + blk.2.2)

/-- A monotone chain of valid matching blocks: starting from cursor `(i, j)`,
each block begins at or after the cursor and moves it to its end; the final
cursor is at most `(iE, jE)`. -/
def chainIn (a b : List String) : Nat → Nat → Nat → Nat → List (Nat × Nat × Nat) → Prop
  | i, j, iE, jE, [] => i ≤ iE ∧ j ≤ jE
  | i, j, iE, jE, (ai, bj, k) :: rest =>
    i ≤ ai ∧ j ≤ bj ∧ validBlock a b (ai, bj, k) ∧ chainIn a b (ai + k) (bj + k) iE jE rest

/-- The `b`-cursor after walking a block list from `j`. -/
def endJ : Nat → List (Nat × Nat × Nat) → Nat
  | j, [] => j
  | _, (_, bj, k) :: rest => endJ (bj + k) rest

/-- The opcodes that `_check_line_count_and_structure` turns into issues. -/
def insDelOp (op : Opcode) : Bool :=
  op.tag == DiffTag.delete || op.tag == DiffTag.insert

/-! ## Slice lemmas -/

theorem sliceList_nil (l : List α) (i : Nat) : sliceList l i i = [] := by
  simp [sliceList]

theorem sliceList_all (l : List α) : sliceList l 0 l.length = l := by
  simp [sliceList]

theorem sliceList_getElem? (l : List α) (i j t : Nat) :
    (sliceList l i j)[t]? = if t < j - i then l[i + t]? else none := by
  simp [sliceList, List.getElem?_take, List.getElem?_drop]

theorem sliceList_append (l : List α) {i k j : Nat} (h1 : i ≤ k) (h2 : k ≤ j) :
    sliceList l i k ++ sliceList l k j = sliceList l i j := by
  unfold sliceList
  have hd : l.drop k = (l.drop i).drop (k - i) := by
    rw [List.drop_drop]
    congr 1
    omega
  rw [hd]
  have ht := (List.take_add (l.drop i) (k - i) (j - k)).symm
  have he : k - i + (j - k) = j - i := by omega
  rw [he] at ht
  exact ht

theorem slice_eq_of_pointwise {a b : List String} {i j k : Nat}
    (ha : i + k ≤ a.length) (hb : j + k ≤ b.length)
    (hm : ∀ t < k, a.getD (i + t) "" = b.getD (j + t) "") :
    sliceList a i (i + k) = sliceList b j (j + k) := by
  apply List.ext_getElem?
  intro n
  rw [sliceList_getElem?, sliceList_getElem?]
  have hik : i + k - i = k := by omega
  have hjk : j + k - j = k := by omega
  rw [hik, hjk]
  split
  · rename_i hn
    have h1 : i + n < a.length := by omega
    have h2 : j + n < b.length := by omega
    have := hm n hn
    rw [List.getD_eq_getElem?_getD, List.getD_eq_getElem?_getD,
      List.getElem?_eq_getElem h1, List.getElem?_eq_getElem h2] at this
    rw [List.getElem?_eq_getElem h1, List.getElem?_eq_getElem h2]
    simpa using this
  · rfl

/-! ## `find_longest_match` produces a genuine matching block -/

theorem mem_b2j {b : List String} {x : String} {j : Nat} (h : j ∈ b2j b x) :
    b.getD j "" = x ∧ j < b.length := by
  unfold b2j at h
  rw [List.mem_filter] at h
  obtain ⟨hr, he⟩ := h
  rw [List.mem_range] at hr
  exact ⟨by simpa using he, hr⟩

theorem bestValid_of_goodRun {a b : List String} {alo ahi blo bhi i j k : Nat}
    (h : goodRun a b alo ahi blo bhi i j k) :
    bestValid a b alo ahi blo bhi (i + 1 - k, j + 1 - k, k) := by
  obtain ⟨h1, h2, h3, h4, h5⟩ := h
  unfold bestValid
  dsimp only
  refine ⟨by omega, by omega, by omega, by omega, ?_⟩
  intro t ht
  have hi : i + 1 - k + t = i - (k - 1 - t) := by omega
  have hj : j + 1 - k + t = j - (k - 1 - t) := by omega
  rw [hi, hj]
  exact h5 (k - 1 - t) (by omega)

theorem flmInner_valid {a b : List String} {alo ahi blo bhi : Nat} {i : Nat}
    (hi : alo ≤ i) (hia : i < ahi) :
    ∀ (js : List Nat) (J newJ : Nat → Nat) (best : Nat × Nat × Nat),
    (∀ j ∈ js, b.getD j "" = a.getD i "") →
    rowValidAt a b alo ahi blo bhi i J →
    rowValidAt a b alo ahi blo bhi (i + 1) newJ →
    bestValid a b alo ahi blo bhi best →
    rowValidAt a b alo ahi blo bhi (i + 1) (flmInner blo bhi i js J newJ best).1 ∧
    bestValid a b alo ahi blo bhi (flmInner blo bhi i js J newJ best).2 := by
  intro js
  induction js with
  | nil =>
    intro J newJ best _ _ hnewJ hbest
    exact ⟨hnewJ, hbest⟩
  | cons j js ih =>
    intro J newJ best hjs hJ hnewJ hbest
    unfold flmInner
    by_cases hjlo : j < blo
    · rw [if_pos hjlo]
      exact ih J newJ best (fun j' hj' => hjs j' (List.mem_cons_of_mem _ hj')) hJ hnewJ hbest
    · rw [if_neg hjlo]
      by_cases hjhi : bhi ≤ j
      · rw [if_pos hjhi]
        exact ⟨hnewJ, hbest⟩
      · rw [if_neg hjhi]
        have hmatch : b.getD j "" = a.getD i "" := hjs j (List.mem_cons_self _ _)
        have base : goodRun a b alo ahi blo bhi i j 1 := by
          refine ⟨by omega, by omega, hia, by omega, ?_⟩
          intro t ht
          have ht0 : t = 0 := by omega
          subst ht0
          simpa using hmatch.symm
        have hrun : goodRun a b alo ahi blo bhi i j ((if j = 0 then 0 else J (j - 1)) + 1) := by
          by_cases hj0 : j = 0
          · simpa [hj0] using base
          · rw [if_neg hj0]
            rcases hJ (j - 1) with hz | ⟨hi1, hJ1, hg⟩
            · simpa [hz] using base
            · obtain ⟨g1, g2, g3, g4, g5⟩ := hg
              refine ⟨by omega, by omega, hia, by omega, ?_⟩
              intro t ht
              rcases Nat.eq_zero_or_pos t with rfl | htpos
              · simpa using hmatch.symm
              · have e1 : i - t = i - 1 - (t - 1) := by omega
                have e2 : j - t = j - 1 - (t - 1) := by omega
                rw [e1, e2]
                exact g5 (t - 1) (by omega)
        apply ih
        · exact fun j' hj' => hjs j' (List.mem_cons_of_mem _ hj')
        · exact hJ
        · intro j'
          by_cases hj' : j' = j
          · subst hj'
            right
            refine ⟨by omega, by simp, ?_⟩
            simpa using hrun
          · simpa [hj'] using hnewJ j'
        · by_cases hlt : best.2.2 < (if j = 0 then 0 else J (j - 1)) + 1
          · simpa [hlt] using bestValid_of_goodRun hrun
          · simpa [hlt] using hbest

theorem flmRows_valid {a b : List String} {alo ahi blo bhi : Nat} :
    ∀ (m i0 : Nat) (J : Nat → Nat) (best : Nat × Nat × Nat),
    alo ≤ i0 → i0 + m ≤ ahi →
    rowValidAt a b alo ahi blo bhi i0 J →
    bestValid a b alo ahi blo bhi best →
    bestValid a b alo ahi blo bhi (flmRows a b blo bhi (List.range' i0 m) J best) := by
  intro m
  induction m with
  | zero =>
    intro i0 J best _ _ _ hbest
    simpa [flmRows] using hbest
  | succ m ih =>
    intro i0 J best h1 h2 hJ hbest
    rw [List.range'_succ]
    unfold flmRows
    have hz : rowValidAt a b alo ahi blo bhi (i0 + 1) (fun _ => 0) := fun _ => Or.inl rfl
    have hout := flmInner_valid (i := i0) h1 (by omega) (b2j b (a.getD i0 ""))
      J (fun _ => 0) best (fun j hj => (mem_b2j hj).1) hJ hz hbest
    exact ih (i0 + 1) _ _ (by omega) (by omega) hout.1 hout.2

theorem flmExtendLeft_valid {a b : List String} {alo ahi blo bhi : Nat} :
    ∀ (fuel : Nat) (best : Nat × Nat × Nat),
    bestValid a b alo ahi blo bhi best →
    bestValid a b alo ahi blo bhi (flmExtendLeft a b alo blo fuel best) := by
  intro fuel
  induction fuel with
  | zero => intro best h; exact h
  | succ fuel ih =>
    intro best h
    obtain ⟨besti, bestj, bestsize⟩ := best
    unfold bestValid at h
    dsimp only at h
    unfold flmExtendLeft
    split
    · rename_i hcond
      simp only [Bool.and_eq_true, decide_eq_true_eq] at hcond
      obtain ⟨⟨h1, h2⟩, h3⟩ := hcond
      obtain ⟨g1, g2, g3, g4, g5⟩ := h
      apply ih
      unfold bestValid
      dsimp only
      refine ⟨by omega, by omega, by omega, by omega, ?_⟩
      intro t ht
      rcases Nat.eq_zero_or_pos t with rfl | htpos
      · simpa using h3
      · have e1 : besti - 1 + t = besti + (t - 1) := by omega
        have e2 : bestj - 1 + t = bestj + (t - 1) := by omega
        rw [e1, e2]
        exact g5 (t - 1) (by omega)
    · exact h

theorem flmExtendRight_valid {a b : List String} {alo ahi blo bhi : Nat} :
    ∀ (fuel : Nat) (best : Nat × Nat × Nat),
    bestValid a b alo ahi blo bhi best →
    bestValid a b alo ahi blo bhi (flmExtendRight a b ahi bhi fuel best) := by
  intro fuel
  induction fuel with
  | zero => intro best h; exact h
  | succ fuel ih =>
    intro best h
    obtain ⟨besti, bestj, bestsize⟩ := best
    unfold bestValid at h
    dsimp only at h
    unfold flmExtendRight
    split
    · rename_i hcond
      simp only [Bool.and_eq_true, decide_eq_true_eq] at hcond
      obtain ⟨⟨h1, h2⟩, h3⟩ := hcond
      obtain ⟨g1, g2, g3, g4, g5⟩ := h
      apply ih
      unfold bestValid
      dsimp only
      refine ⟨g1, g2, by omega, by omega, ?_⟩
      intro t ht
      by_cases hts : t < bestsize
      · exact g5 t hts
      · have ht' : t = bestsize := by omega
        subst ht'
        exact h3
    · exact h

theorem findLongestMatch_valid {a b : List String} {alo ahi blo bhi : Nat}
    (h1 : alo ≤ ahi) (h2 : blo ≤ bhi) :
    bestValid a b alo ahi blo bhi (findLongestMatch a b alo ahi blo bhi) := by
  unfold findLongestMatch
  apply flmExtendRight_valid
  apply flmExtendLeft_valid
  apply flmRows_valid _ alo _ _ (Nat.le_refl alo) (by omega) (fun _ => Or.inl rfl)
  unfold bestValid
  dsimp only
  exact ⟨Nat.le_refl alo, Nat.le_refl blo, by omega, by omega, by omega⟩

/-! ## Chains of matching blocks -/

theorem validBlock_of_bestValid {a b : List String} {alo ahi blo bhi : Nat}
    {blk : Nat × Nat × Nat} (hA : ahi ≤ a.length) (hB : bhi ≤ b.length)
    (h : bestValid a b alo ahi blo bhi blk) : validBlock a b blk := by
  obtain ⟨g1, g2, g3, g4, g5⟩ := h
  exact ⟨by omega, by omega, slice_eq_of_pointwise (by omega) (by omega) g5⟩

theorem chainIn_mono {a b : List String} :
    ∀ (l : List (Nat × Nat × Nat)) {i j i' j' iE jE : Nat},
    i' ≤ i → j' ≤ j → chainIn a b i j iE jE l → chainIn a b i' j' iE jE l := by
  intro l
  cases l with
  | nil =>
    intro i j i' j' iE jE hi hj h
    exact ⟨Nat.le_trans hi h.1, Nat.le_trans hj h.2⟩
  | cons blk rest =>
    intro i j i' j' iE jE hi hj h
    obtain ⟨ai, bj, k⟩ := blk
    obtain ⟨h1, h2, h3, h4⟩ := h
    exact ⟨Nat.le_trans hi h1, Nat.le_trans hj h2, h3, h4⟩

theorem chainIn_append {a b : List String} :
    ∀ (xs : List (Nat × Nat × Nat)) {ys : List (Nat × Nat × Nat)} {i j m n iE jE : Nat},
    chainIn a b i j m n xs → chainIn a b m n iE jE ys →
    chainIn a b i j iE jE (xs ++ ys) := by
  intro xs
  induction xs with
  | nil =>
    intro ys i j m n iE jE hx hy
    exact chainIn_mono ys hx.1 hx.2 hy
  | cons blk xs ih =>
    intro ys i j m n iE jE hx hy
    obtain ⟨ai, bj, k⟩ := blk
    obtain ⟨h1, h2, h3, h4⟩ := hx
    exact ⟨h1, h2, h3, ih h4 hy⟩

theorem chainIn_cursor_le {a b : List String} :
    ∀ (l : List (Nat × Nat × Nat)) {i j iE jE : Nat},
    chainIn a b i j iE jE l → ∀ blk ∈ l, i ≤ blk.1 := by
  intro l
  induction l with
  | nil => intro i j iE jE _ blk hblk; cases hblk
  | cons hd rest ih =>
    intro i j iE jE h blk hblk
    obtain ⟨ai, bj, k⟩ := hd
    obtain ⟨h1, h2, h3, h4⟩ := h
    rcases List.mem_cons.1 hblk with rfl | hmem
    · exact h1
    · exact Nat.le_trans (by omega) (ih h4 blk hmem)

/-- The recursive block collection produces a chain of genuine, nonempty
matching blocks inside its rectangle. -/
theorem matchingBlocksRec_chain {a b : List String} :
    ∀ (fuel alo ahi blo bhi : Nat),
    alo ≤ ahi → ahi ≤ a.length → blo ≤ bhi → bhi ≤ b.length →
    chainIn a b alo blo ahi bhi (matchingBlocksRec a b fuel alo ahi blo bhi) ∧
    ∀ blk ∈ matchingBlocksRec a b fuel alo ahi blo bhi, 0 < blk.2.2 := by
  intro fuel
  induction fuel with
  | zero =>
    intro alo ahi blo bhi h1 h2 h3 h4
    exact ⟨⟨h1, h3⟩, by intro blk hblk; cases hblk⟩
  | succ fuel ih =>
    intro alo ahi blo bhi h1 h2 h3 h4
    unfold matchingBlocksRec
    have hflm := @findLongestMatch_valid a b alo ahi blo bhi h1 h3
    obtain ⟨g1, g2, g3, g4, g5⟩ := hflm
    by_cases hk : (findLongestMatch a b alo ahi blo bhi).2.2 = 0
    · rw [if_pos hk]
      exact ⟨⟨h1, h3⟩, by intro blk hblk; cases hblk⟩
    · rw [if_neg hk]
      set x := findLongestMatch a b alo ahi blo bhi with hx
      have hvb : validBlock a b (x.1, x.2.1, x.2.2) :=
        validBlock_of_bestValid h2 h4 ⟨g1, g2, g3, g4, g5⟩
      have hleft :
          chainIn a b alo blo x.1 x.2.1
            (if alo < x.1 && blo < x.2.1 then matchingBlocksRec a b fuel alo x.1 blo x.2.1
             else []) ∧
          ∀ blk ∈ (if alo < x.1 && blo < x.2.1 then
              matchingBlocksRec a b fuel alo x.1 blo x.2.1 else []), 0 < blk.2.2 := by
        split
        · exact ih alo x.1 blo x.2.1 g1 (by omega) g2 (by omega)
        · exact ⟨⟨g1, g2⟩, by intro blk hblk; cases hblk⟩
      have hright :
          chainIn a b (x.1 + x.2.2) (x.2.1 + x.2.2) ahi bhi
            (if x.1 + x.2.2 < ahi && x.2.1 + x.2.2 < bhi then
              matchingBlocksRec a b fuel (x.1 + x.2.2) ahi (x.2.1 + x.2.2) bhi else []) ∧
          ∀ blk ∈ (if x.1 + x.2.2 < ahi && x.2.1 + x.2.2 < bhi then
              matchingBlocksRec a b fuel (x.1 + x.2.2) ahi (x.2.1 + x.2.2) bhi else []),
            0 < blk.2.2 := by
        split
        · exact ih (x.1 + x.2.2) ahi (x.2.1 + x.2.2) bhi g3 h2 g4 h4
        · exact ⟨⟨g3, g4⟩, by intro blk hblk; cases hblk⟩
      constructor
      · rw [List.append_assoc]
        apply chainIn_append _ hleft.1
        refine ⟨Nat.le_refl _, Nat.le_refl _, ?_, ?_⟩
        · simpa using hvb
        · exact hright.1
      · intro blk hblk
        rcases List.mem_append.1 hblk with hl | hr
        · rcases List.mem_append.1 hl with hl' | hm
          · exact hleft.2 blk hl'
          · rw [List.mem_singleton] at hm
            subst hm
            simpa using Nat.pos_of_ne_zero hk
        · exact hright.2 blk hr

/-! ## Sorting an already-chained block list is the identity -/

theorem insertBlock_of_le (x : Nat × Nat × Nat) (l : List (Nat × Nat × Nat))
    (h : ∀ y ∈ l, blockLe x y = true) : insertBlock x l = x :: l := by
  cases l with
  | nil => rfl
  | cons y ys =>
    unfold insertBlock
    rw [if_pos (h y (List.mem_cons_self _ _))]

theorem sortBlocks_of_chain {a b : List String} :
    ∀ (l : List (Nat × Nat × Nat)) {i j iE jE : Nat},
    chainIn a b i j iE jE l → (∀ blk ∈ l, 0 < blk.2.2) →
    sortBlocks l = l := by
  intro l
  induction l with
  | nil => intro i j iE jE _ _; rfl
  | cons blk rest ih =>
    intro i j iE jE hc hpos
    obtain ⟨ai, bj, k⟩ := blk
    obtain ⟨h1, h2, h3, h4⟩ := hc
    have hrec : sortBlocks rest = rest :=
      ih h4 (fun b hb => hpos b (List.mem_cons_of_mem _ hb))
    show insertBlock (ai, bj, k) (sortBlocks rest) = (ai, bj, k) :: rest
    rw [hrec]
    apply insertBlock_of_le
    intro y hy
    have hk : 0 < k := hpos (ai, bj, k) (List.mem_cons_self _ _)
    have := chainIn_cursor_le rest h4 y hy
    unfold blockLe
    have hlt : ai < y.1 := by omega
    simp [hlt]

/-! ## Collapsing adjacent blocks preserves the chain -/

theorem mergeAdjacent_chain {a b : List String} :
    ∀ (rest : List (Nat × Nat × Nat)) (cur : Nat × Nat × Nat) {i j iE jE : Nat},
    i ≤ cur.1 → j ≤ cur.2.1 → validBlock a b cur →
    chainIn a b (cur.1 + cur.2.2) (cur.2.1 + cur.2.2) iE jE rest →
    chainIn a b i j iE jE (mergeAdjacent cur rest) := by
  intro rest
  induction rest with
  | nil =>
    intro cur i j iE jE hi hj hv hc
    obtain ⟨hie, hje⟩ := hc
    obtain ⟨c1, c2, ck⟩ := cur
    unfold mergeAdjacent
    dsimp only at *
    split
    · exact ⟨hi, hj, hv, hie, hje⟩
    · rename_i hk
      have hk0 : ck = 0 := by omega
      exact ⟨by omega, by omega⟩
  | cons nxt rest ih =>
    intro cur i j iE jE hi hj hv hc
    obtain ⟨n1, n2, nk⟩ := nxt
    obtain ⟨c1, c2, ck⟩ := cur
    obtain ⟨h1, h2, hvn, hcr⟩ := hc
    unfold mergeAdjacent
    dsimp only at *
    split
    · rename_i hadj
      simp only [Bool.and_eq_true, decide_eq_true_eq] at hadj
      obtain ⟨ha1, ha2⟩ := hadj
      apply ih (c1, c2, ck + nk) hi hj
      · obtain ⟨v1, v2, v3⟩ := hv
        obtain ⟨w1, w2, w3⟩ := hvn
        dsimp only at *
        unfold validBlock
        dsimp only
        refine ⟨by omega, by omega, ?_⟩
        rw [← sliceList_append a (by omega : c1 ≤ c1 + ck) (by omega : c1 + ck ≤ c1 + (ck + nk)),
          ← sliceList_append b (by omega : c2 ≤ c2 + ck) (by omega : c2 + ck ≤ c2 + (ck + nk))]
        rw [v3]
        have e1 : c1 + ck = n1 := ha1
        have e2 : c2 + ck = n2 := ha2
        rw [e1, e2]
        have e3 : c1 + (ck + nk) = n1 + nk := by omega
        have e4 : c2 + (ck + nk) = n2 + nk := by omega
        rw [e3, e4, w3]
      · dsimp only
        have e3 : c1 + (ck + nk) = n1 + nk := by omega
        have e4 : c2 + (ck + nk) = n2 + nk := by omega
        rw [e3, e4]
        exact hcr
    · have htail := ih (n1, n2, nk) (i := c1 + ck) (j := c2 + ck) h1 h2 hvn hcr
      by_cases hk : ck = 0
      · simp only [hk, decide_eq_true_eq]
        rw [if_neg (by omega)]
        simp only [List.nil_append]
        exact chainIn_mono _ (by omega) (by omega) htail
      · rw [if_pos (by simpa using hk)]
        exact ⟨hi, hj, hv, htail⟩

/-! ## Replaying the opcodes rebuilds the candidate -/

theorem endJ_append : ∀ (xs ys : List (Nat × Nat × Nat)) (j : Nat),
    endJ j (xs ++ ys) = endJ (endJ j xs) ys := by
  intro xs
  induction xs with
  | nil => intro ys j; rfl
  | cons blk rest ih =>
    intro ys j
    obtain ⟨ai, bj, k⟩ := blk
    simpa [endJ] using ih ys (bj + k)

theorem endJ_ge {a b : List String} :
    ∀ (l : List (Nat × Nat × Nat)) {i j iE jE : Nat},
    chainIn a b i j iE jE l → j ≤ endJ j l := by
  intro l
  induction l with
  | nil => intro i j iE jE _; exact Nat.le_refl j
  | cons blk rest ih =>
    intro i j iE jE h
    obtain ⟨ai, bj, k⟩ := blk
    obtain ⟨h1, h2, h3, h4⟩ := h
    calc j ≤ bj + k := by omega
    _ ≤ endJ (bj + k) rest := ih h4

theorem replayOpcodes_append (a b : List String) (xs ys : List Opcode) :
    replayOpcodes a b (xs ++ ys) = replayOpcodes a b xs ++ replayOpcodes a b ys := by
  induction xs with
  | nil => rfl
  | cons op ops ih =>
    show _ ++ replayOpcodes a b (ops ++ ys) = (_ ++ replayOpcodes a b ops) ++ replayOpcodes a b ys
    rw [ih, List.append_assoc]

theorem replay_getOpcodesAux {a b : List String} :
    ∀ (blocks : List (Nat × Nat × Nat)) (i j : Nat),
    chainIn a b i j a.length b.length blocks →
    replayOpcodes a b (getOpcodesAux i j blocks) = sliceList b j (endJ j blocks) := by
  intro blocks
  induction blocks with
  | nil =>
    intro i j _
    simp [getOpcodesAux, replayOpcodes, endJ, sliceList_nil]
  | cons blk rest ih =>
    intro i j h
    obtain ⟨ai, bj, k⟩ := blk
    obtain ⟨h1, h2, hv, hc⟩ := h
    obtain ⟨v1, v2, v3⟩ := hv
    dsimp only at v1 v2 v3
    have hrest := ih (ai + k) (bj + k) hc
    have hje : bj + k ≤ endJ (bj + k) rest := endJ_ge rest hc
    rw [getOpcodesAux, replayOpcodes_append, replayOpcodes_append, hrest]
    have hgap : replayOpcodes a b
        (if i < ai && j < bj then [(⟨.replace, i, ai, j, bj⟩ : Opcode)]
         else if i < ai then [⟨.delete, i, ai, j, bj⟩]
         else if j < bj then [⟨.insert, i, ai, j, bj⟩]
         else []) = sliceList b j bj := by
      by_cases hia : i < ai <;> by_cases hjb : j < bj
      · rw [if_pos (by simp [hia, hjb])]
        simp [replayOpcodes]
      · have hjbj : j = bj := by omega
        subst hjbj
        rw [if_neg (by simp [hjb]), if_pos hia]
        simp [replayOpcodes, sliceList_nil]
      · rw [if_neg (by simp [hia]), if_neg hia, if_pos hjb]
        simp [replayOpcodes]
      · have hjbj : j = bj := by omega
        subst hjbj
        rw [if_neg (by simp [hia]), if_neg hia, if_neg hjb]
        simp [replayOpcodes, sliceList_nil]
    have heq2 : replayOpcodes a b
        (if k ≠ 0 then [(⟨.equal, ai, ai + k, bj, bj + k⟩ : Opcode)] else []) =
        sliceList b bj (bj + k) := by
      by_cases hk : k = 0
      · subst hk
        simp [replayOpcodes, sliceList_nil]
      · rw [if_pos hk]
        simp only [replayOpcodes, List.foldr_cons, List.foldr_nil, List.append_nil]
        exact v3
    rw [hgap, heq2]
    rw [show endJ j ((ai, bj, k) :: rest) = endJ (bj + k) rest from rfl]
    rw [List.append_assoc]
    rw [sliceList_append b (by omega : bj ≤ bj + k) hje]
    rw [sliceList_append b (by omega : j ≤ bj) (by omega : bj ≤ endJ (bj + k) rest)]

theorem getMatchingBlocks_chain (a b : List String) :
    chainIn a b 0 0 a.length b.length (getMatchingBlocks a b) := by
  unfold getMatchingBlocks
  have hrec := matchingBlocksRec_chain (a := a) (b := b)
    (a.length + b.length + 1) 0 a.length 0 b.length
    (Nat.zero_le _) (Nat.le_refl _) (Nat.zero_le _) (Nat.le_refl _)
  rw [sortBlocks_of_chain _ hrec.1 hrec.2]
  apply chainIn_append (m := a.length) (n := b.length)
  · apply mergeAdjacent_chain _ (0, 0, 0) (Nat.le_refl 0) (Nat.le_refl 0)
    · exact ⟨Nat.zero_le _, Nat.zero_le _, rfl⟩
    · exact hrec.1
  · exact ⟨Nat.le_refl _, Nat.le_refl _,
      ⟨by simp, by simp, by simp [sliceList]⟩, by simp, by simp⟩

theorem endJ_getMatchingBlocks (a b : List String) :
    endJ 0 (getMatchingBlocks a b) = b.length := by
  unfold getMatchingBlocks
  rw [endJ_append]
  rfl

/-- The central alignment theorem: the edit script that
`SequenceMatcher.get_opcodes` returns, replayed on the source lines,
rebuilds exactly the candidate lines. -/
theorem replay_getOpcodes (a b : List String) :
    replayOpcodes a b (getOpcodes a b) = b := by
  unfold getOpcodes
  rw [replay_getOpcodesAux _ 0 0 (getMatchingBlocks_chain a b), endJ_getMatchingBlocks]
  exact sliceList_all b

/-! ## Issue bookkeeping lemmas -/

theorem mem_foldr_append {α β : Type} (f : α → List β) (l : List α) (y : β) :
    y ∈ l.foldr (fun x acc => f x ++ acc) [] ↔ ∃ x ∈ l, y ∈ f x := by
  induction l with
  | nil => simp
  | cons x xs ih => simp [ih]

theorem length_filterMap_eq_length_filter {α β : Type} (f : α → Option β) (p : α → Bool)
    (h : ∀ x, (f x).isSome = p x) :
    ∀ l : List α, (l.filterMap f).length = (l.filter p).length := by
  intro l
  induction l with
  | nil => rfl
  | cons x xs ih =>
    rw [List.filterMap_cons, List.filter_cons]
    have := h x
    cases hf : f x with
    | none => rw [hf] at this; simp only [← this]; simpa using ih
    | some y => rw [hf] at this; simp only [← this]; simpa using ih

theorem structuralIssueOf_isSome (origLines transLines : List String) (op : Opcode) :
    (structuralIssueOf origLines transLines op).isSome = insDelOp op := by
  cases h : op.tag <;> simp [structuralIssueOf, insDelOp, h]

theorem mem_structuralIssueOf_itype {origLines transLines : List String} {op : Opcode}
    {issue : Issue} (h : structuralIssueOf origLines transLines op = some issue) :
    issue.itype = "구조적 불일치 (줄 삭제/추가)" ∧ issue.severity = "CRITICAL" ∧
    issue.line_num = op.i1 + 1 := by
  cases htag : op.tag <;> rw [structuralIssueOf, htag] at h <;>
    cases h <;> exact ⟨rfl, rfl, rfl⟩

theorem mem_checkLineCountAndStructure_itype {origLines transLines : List String}
    {issue : Issue} (h : issue ∈ (checkLineCountAndStructure origLines transLines).2) :
    issue.itype = "구조적 오류" ∨ issue.itype = "구조적 불일치 (줄 삭제/추가)" := by
  unfold checkLineCountAndStructure at h
  split at h
  · cases h
  · rcases List.mem_cons.1 h with rfl | hmem
    · exact Or.inl rfl
    · rcases List.mem_filterMap.1 hmem with ⟨op, -, hop⟩
      exact Or.inr (mem_structuralIssueOf_itype hop).1

theorem mem_checkCoreIdentifiers_itype {origLines transLines : List String} {issue : Issue}
    (h : issue ∈ checkCoreIdentifiers origLines transLines) :
    issue.itype = "패시지 헤더 불일치" ∨ issue.itype = "링크 목적지 불일치" := by
  unfold checkCoreIdentifiers at h
  rcases List.mem_append.1 h with h1 | h2
  · split at h1
    · rcases List.mem_singleton.1 h1 with rfl
      exact Or.inl rfl
    · cases h1
  · by_cases hd : sameSetStr (extractLinkDestinations origLines)
        (extractLinkDestinations transLines)
    · simp only [hd, Bool.not_true, if_false] at h2
      cases h2
    · have hd' : sameSetStr (extractLinkDestinations origLines)
          (extractLinkDestinations transLines) = false := by
        simpa using hd
      simp only [hd', Bool.not_false, if_true] at h2
      rcases List.mem_singleton.1 h2 with rfl
      exact Or.inr rfl

theorem mem_checkGlobalVariableConsistency {origLines transLines : List String} {issue : Issue}
    (h : issue ∈ checkGlobalVariableConsistency origLines transLines) :
    issue.itype = "전역 변수 불일치" ∧ issue.line_num = 0 ∧ issue.severity = "CRITICAL" := by
  unfold checkGlobalVariableConsistency at h
  try dsimp only at h
  split at h
  · rcases List.mem_singleton.1 h with rfl
    exact ⟨rfl, rfl, rfl⟩
  · cases h

theorem length_checkGlobalVariableConsistency (origLines transLines : List String) :
    (checkGlobalVariableConsistency origLines transLines).length =
      if sameSetStr (findVariables (String.intercalate "\n" origLines))
          (findVariables (String.intercalate "\n" transLines)) then 0 else 1 := by
  unfold checkGlobalVariableConsistency
  by_cases hs : sameSetStr (findVariables (String.intercalate "\n" origLines))
      (findVariables (String.intercalate "\n" transLines))
  · simp [hs]
  · simp [hs]

theorem mem_linkPlayabilityIssue_itype {line displayText : String} {lineNum : Nat}
    {issue : Issue} (h : issue ∈ linkPlayabilityIssue line lineNum displayText) :
    issue.itype = "빈 상호작용" ∨ issue.itype = "미번역 의심 (링크)" := by
  unfold linkPlayabilityIssue at h
  try dsimp only at h
  split at h
  · rcases List.mem_singleton.1 h with rfl
    exact Or.inl rfl
  · split at h
    · split at h
      · rcases List.mem_singleton.1 h with rfl
        exact Or.inr rfl
      · cases h
    · cases h

theorem mem_checkLinksForPlayability_itype {line : String} {lineNum : Nat} {issue : Issue}
    (h : issue ∈ checkLinksForPlayability line lineNum) :
    issue.itype = "빈 상호작용" ∨ issue.itype = "미번역 의심 (링크)" := by
  unfold checkLinksForPlayability at h
  try dsimp only at h
  rcases (mem_foldr_append _ _ _).1 h with ⟨x, -, hx⟩
  exact mem_linkPlayabilityIssue_itype hx

theorem mem_checkUntranslatedContent_itype {originalLine translatedLine : String}
    {lineNum : Nat} {isSound : Bool} {issue : Issue}
    (h : issue ∈ checkUntranslatedContent originalLine translatedLine lineNum isSound) :
    issue.itype = "미번역 의심 (콘텐츠)" := by
  unfold checkUntranslatedContent at h
  try dsimp only at h
  split at h
  · cases h
  · split at h
    · cases h
    · split at h
      · rcases List.mem_singleton.1 h with rfl
        rfl
      · cases h

theorem mem_checkForbiddenPatterns_itype {line : String} {lineNum : Nat} {issue : Issue}
    (h : issue ∈ checkForbiddenPatterns line lineNum) :
    issue.itype = "금지된 패턴 사용" := by
  unfold checkForbiddenPatterns at h
  split at h
  · rcases List.mem_singleton.1 h with rfl
    rfl
  · cases h

theorem mem_checkTextCorruption_itype {line : String} {lineNum : Nat} {issue : Issue}
    (h : issue ∈ checkTextCorruption line lineNum) :
    issue.itype = "텍스트 손상" := by
  unfold checkTextCorruption at h
  split at h
  · rcases List.mem_singleton.1 h with rfl
    rfl
  · cases h

theorem mem_macroCorruptionIssue_itype {origMacro transMacro : String} {lineNum : Nat}
    {issue : Issue} (h : issue ∈ macroCorruptionIssue origMacro transMacro lineNum) :
    issue.itype = "매크로 코드 손상" := by
  unfold macroCorruptionIssue at h
  try dsimp only at h
  split at h
  · cases h
  · split at h
    · cases h
    · split at h
      · rcases List.mem_singleton.1 h with rfl
        rfl
      · cases h

theorem mem_checkMacroCorruption_itype {originalLine translatedLine : String} {lineNum : Nat}
    {issue : Issue} (h : issue ∈ checkMacroCorruption originalLine translatedLine lineNum) :
    issue.itype = "매크로 코드 손상" := by
  unfold checkMacroCorruption at h
  try dsimp only at h
  split at h
  · rcases (mem_foldr_append _ _ _).1 h with ⟨x, -, hx⟩
    exact mem_macroCorruptionIssue_itype hx
  · cases h

theorem mem_glossaryIssueFor_itype {glossary : List (String × String)}
    {foundKorTokens : List String} {pureTranslated originalLine translatedLine : String}
    {lineNum : Nat} {engKey : String} {issue : Issue}
    (h : issue ∈ glossaryIssueFor glossary foundKorTokens pureTranslated originalLine
        translatedLine lineNum engKey) :
    issue.itype = "용어집 미적용" ∨ issue.itype = "용어집 오역/누락 의심" := by
  unfold glossaryIssueFor at h
  try dsimp only at h
  split at h
  · cases h
  · split at h
    · cases h
    · split at h
      · split at h
        · rcases List.mem_singleton.1 h with rfl
          exact Or.inl rfl
        · rcases List.mem_singleton.1 h with rfl
          exact Or.inr rfl
      · cases h

theorem mem_checkGlossaryComplianceNlp_itype {glossary : List (String × String)}
    {tokenize : String → List String} {originalLine translatedLine : String} {lineNum : Nat}
    {issue : Issue}
    (h : issue ∈ checkGlossaryComplianceNlp glossary tokenize originalLine translatedLine
        lineNum) :
    issue.itype = "용어집 미적용" ∨ issue.itype = "용어집 오역/누락 의심" := by
  unfold checkGlossaryComplianceNlp at h
  try dsimp only at h
  split at h
  · cases h
  · split at h
    · cases h
    · split at h
      · cases h
      · rcases (mem_foldr_append _ _ _).1 h with ⟨x, -, hx⟩
        exact mem_glossaryIssueFor_itype hx

/-- Every issue any per-line check can append carries one of the per-line
issue types; in particular none carries a variable-consistency type. -/
theorem mem_checkLine_itype {glossary : List (String × String)}
    {tokenize : String → List String} {originalLine translatedLine : String} {lineNum : Nat}
    {isSound : Bool} {issue : Issue}
    (h : issue ∈ checkLine glossary tokenize originalLine translatedLine lineNum isSound) :
    issue.itype = "빈 상호작용" ∨ issue.itype = "미번역 의심 (링크)" ∨
    issue.itype = "미번역 의심 (콘텐츠)" ∨ issue.itype = "금지된 패턴 사용" ∨
    issue.itype = "용어집 미적용" ∨ issue.itype = "용어집 오역/누락 의심" ∨
    issue.itype = "매크로 코드 손상" ∨ issue.itype = "텍스트 손상" := by
  unfold checkLine at h
  try dsimp only at h
  rcases List.mem_append.1 h with h1 | h2
  · rcases List.mem_append.1 h1 with h3 | h4
    · split at h3
      · rcases List.mem_append.1 h3 with h5 | h6
        · rcases List.mem_append.1 h5 with h7 | h8
          · rcases List.mem_append.1 h7 with h9 | h10
            · rcases mem_checkLinksForPlayability_itype h9 with h | h
              · exact Or.inl h
              · exact Or.inr (Or.inl h)
            · exact Or.inr (Or.inr (Or.inl (mem_checkUntranslatedContent_itype h10)))
          · exact Or.inr (Or.inr (Or.inr (Or.inl (mem_checkForbiddenPatterns_itype h8))))
        · split at h6
          · rcases mem_checkGlossaryComplianceNlp_itype h6 with h | h
            · exact Or.inr (Or.inr (Or.inr (Or.inr (Or.inl h))))
            · exact Or.inr (Or.inr (Or.inr (Or.inr (Or.inr (Or.inl h)))))
          · cases h6
      · cases h3
    · split at h4
      · exact Or.inr (Or.inr (Or.inr (Or.inr (Or.inr (Or.inr
          (Or.inl (mem_checkMacroCorruption_itype h4)))))))
      · cases h4
  · exact Or.inr (Or.inr (Or.inr (Or.inr (Or.inr (Or.inr
      (Or.inr (mem_checkTextCorruption_itype h2)))))))

theorem mem_checkAllLinesAux_itype {glossary : List (String × String)}
    {tokenize : String → List String} {origLines : List String} {isSound : Bool} :
    ∀ {i : Nat} {transLines : List String} {issue : Issue},
    issue ∈ checkAllLinesAux glossary tokenize origLines isSound i transLines →
    issue.itype ≠ "전역 변수 불일치" := by
  intro i transLines
  induction transLines generalizing i with
  | nil => intro issue h; cases h
  | cons t rest ih =>
    intro issue h
    rcases List.mem_append.1 h with h1 | h2
    · intro hc
      rcases mem_checkLine_itype h1 with h | h | h | h | h | h | h | h <;>
        rw [hc] at h <;> exact absurd h (by decide)
    · exact ih h2

/-! ## Claim C3 -/

/-- C3: For every pair of documents with equal line counts (in particular
`align(D, D)` for any document `D`), the structural aligner declares the pair
structurally sound and emits zero structural issues. -/
theorem equal_line_counts_sound (origLines transLines : List String)
    (h : origLines.length = transLines.length) :
    checkLineCountAndStructure origLines transLines = (true, []) := by
  unfold checkLineCountAndStructure
  rw [if_pos h]

/-- C3 witness: `align(D, D)` for the two-line document `D`. -/
theorem equal_line_counts_sound_witness :
    ([":: A", "본문"] : List String).length = ([":: A", "본문"] : List String).length ∧
    checkLineCountAndStructure [":: A", "본문"] [":: A", "본문"] = (true, []) :=
  ⟨rfl, equal_line_counts_sound [":: A", "본문"] [":: A", "본문"] rfl⟩

/-! ## Claim C9 -/

/-- C9: For every structurally sound aligned line pair in which the source
line and the candidate line contain different numbers of macro invocations,
the macro-corruption check raises no issue at all for that line: the macro
count mismatch is silently unreported by this check. -/
theorem macro_count_mismatch_unreported (originalLine translatedLine : String) (lineNum : Nat)
    (h : (findMacros originalLine).length ≠ (findMacros translatedLine).length) :
    checkMacroCorruption originalLine translatedLine lineNum = [] := by
  unfold checkMacroCorruption
  try dsimp only
  rw [if_neg h]

/-- C9 witness: the candidate lost one of the two source macros and even
corrupted the remaining one, yet the check reports nothing. -/
theorem macro_count_mismatch_unreported_witness :
    (findMacros "<<set $a>> <<npc \"Hawk\">>").length ≠
      (findMacros "<<npc \"매\">>").length ∧
    checkMacroCorruption "<<set $a>> <<npc \"Hawk\">>" "<<npc \"매\">>" 3 = [] :=
  ⟨by decide, macro_count_mismatch_unreported "<<set $a>> <<npc \"Hawk\">>" "<<npc \"매\">>" 3
    (by decide)⟩

/-! ## Claim C10 -/

theorem runAutoFixerAux_shape : ∀ (ls : List String) (i : Nat),
    (runAutoFixerAux i ls).1 = ls.map fixLine ∧
    (runAutoFixerAux i ls).2 = (List.range ls.length).filterMap (fun t =>
      if fixLine (ls.getD t "") ≠ ls.getD t "" then
        some ⟨i + t + 1, ls.getD t "", fixLine (ls.getD t "")⟩
      else none) := by
  intro ls
  induction ls with
  | nil => intro i; exact ⟨rfl, rfl⟩
  | cons l rest ih =>
    intro i
    obtain ⟨ih1, ih2⟩ := ih (i + 1)
    constructor
    · show fixLine l :: (runAutoFixerAux (i + 1) rest).1 = fixLine l :: rest.map fixLine
      rw [ih1]
    · show (if fixLine l ≠ l then [⟨i + 1, l, fixLine l⟩] else []) ++
        (runAutoFixerAux (i + 1) rest).2 = _
      rw [ih2, List.length_cons, List.range_succ_eq_map, List.filterMap_cons,
        List.filterMap_map]
      have hfun : ((fun t =>
          if fixLine ((l :: rest).getD t "") ≠ (l :: rest).getD t "" then
            some (⟨i + t + 1, (l :: rest).getD t "", fixLine ((l :: rest).getD t "")⟩ : FixRecord)
          else none) ∘ Nat.succ) = (fun t =>
          if fixLine (rest.getD t "") ≠ rest.getD t "" then
            some (⟨i + 1 + t + 1, rest.getD t "", fixLine (rest.getD t "")⟩ : FixRecord)
          else none) := by
        funext t
        simp only [Function.comp, List.getD_cons_succ]
        rw [show i + (t + 1) + 1 = i + 1 + t + 1 from by omega]
      rw [hfun]
      simp only [List.getD_cons_zero, Nat.add_zero]
      split
      · rfl
      · rfl

/-- C10: For every candidate document, the Auto-Fixer's output document has
exactly the same number of lines as the input candidate (each line is the
input line rewritten by the fix rules), and the fix records are exactly the
(1-based line number, before, after) triples of the lines whose content
changed. -/
theorem auto_fixer_shape (translatedLines : List String) :
    (runAutoFixer translatedLines).1 = translatedLines.map fixLine ∧
    (runAutoFixer translatedLines).1.length = translatedLines.length ∧
    (runAutoFixer translatedLines).2 =
      (List.range translatedLines.length).filterMap (fun i =>
        if fixLine (translatedLines.getD i "") ≠ translatedLines.getD i "" then
          some ⟨i + 1, translatedLines.getD i "", fixLine (translatedLines.getD i "")⟩
        else none) := by
  obtain ⟨h1, h2⟩ := runAutoFixerAux_shape translatedLines 0
  refine ⟨h1, ?_, ?_⟩
  · show (runAutoFixerAux 0 translatedLines).1.length = _
    rw [h1, List.length_map]
  · show (runAutoFixerAux 0 translatedLines).2 = _
    rw [h2]
    simp only [Nat.zero_add]

/-! ## Claim C6 -/

/-- C6 (failing input): the Auto-Fixer is not idempotent.  On the line
`<<b "<<a 1_가>>"_나>>` — a macro whose quoted string argument itself spells a
macro with a misplaced particle — the first pass rewrites the outer macro
(the inner text is part of the consumed match and is not rescanned), and the
second pass then rewrites the inner macro inside the quotes, producing a new
fix record.  Rule 1 alone already violates per-rule idempotence. -/
theorem auto_fixer_second_pass_changes :
    fixLine "<<b \"<<a 1_가>>\"_나>>" = "<<b_나 \"<<a 1_가>>\">>" ∧
    fixLine (fixLine "<<b \"<<a 1_가>>\"_나>>") = "<<b_나 \"<<a_가 1>>\">>" ∧
    fixLine (fixLine "<<b \"<<a 1_가>>\"_나>>") ≠ fixLine "<<b \"<<a 1_가>>\"_나>>" ∧
    p1Sub (p1Sub ("<<b \"<<a 1_가>>\"_나>>" : String).data) ≠
      p1Sub ("<<b \"<<a 1_가>>\"_나>>" : String).data ∧
    (runAutoFixer (runAutoFixer ["<<b \"<<a 1_가>>\"_나>>"]).1).2 =
      [⟨1, "<<b_나 \"<<a 1_가>>\">>", "<<b_나 \"<<a_가 1>>\">>"⟩] := by
  decide

/-! ## Claim C5 -/

/-- C5: For a structurally sound line pair whose aligned source and candidate
macro counts match, a candidate macro whose head identifier is not on the
text-macro allow-list and whose quoted string literals include an offender —
a literal containing Korean script that is not a grammatical-particle token
of the allow-list — contributes exactly one Critical macro-corruption issue,
citing the first such offending literal only (`find?` is the first-offender
search the per-macro loop performs before `break`), and that issue appears
in the line's macro-corruption check output. -/
theorem macro_corruption_first_literal
    (originalLine translatedLine : String) (lineNum : Nat)
    (origMacro transMacro name lit : String)
    (hlen : (findMacros originalLine).length = (findMacros translatedLine).length)
    (hpair : (origMacro, transMacro) ∈ (findMacros originalLine).zip (findMacros translatedLine))
    (hname : macroNameOf transMacro = some name)
    (hwl : TEXT_MACROS_WHITELIST.contains name = false)
    (hfirst : (stringLiterals (pyStrip (String.mk
        ((transMacro.data.drop 2).dropLast.dropLast)))).find?
        (fun l => hasKorean l && !ALLOWED_POSTPOSITIONS.contains l) = some lit) :
    macroCorruptionIssue origMacro transMacro lineNum =
      [⟨lineNum, "CRITICAL", "매크로 코드 손상",
        "번역 금지 의심 매크로(`" ++ name ++ "`) 내부의 코드 식별자 '" ++ lit ++
          "'이(가) 번역되었습니다.",
        some ("`" ++ origMacro ++ "`"), some ("`" ++ transMacro ++ "`"), none⟩] ∧
    (⟨lineNum, "CRITICAL", "매크로 코드 손상",
        "번역 금지 의심 매크로(`" ++ name ++ "`) 내부의 코드 식별자 '" ++ lit ++
          "'이(가) 번역되었습니다.",
        some ("`" ++ origMacro ++ "`"), some ("`" ++ transMacro ++ "`"), none⟩ : Issue) ∈
      checkMacroCorruption originalLine translatedLine lineNum := by
  have hone : macroCorruptionIssue origMacro transMacro lineNum =
      [⟨lineNum, "CRITICAL", "매크로 코드 손상",
        "번역 금지 의심 매크로(`" ++ name ++ "`) 내부의 코드 식별자 '" ++ lit ++
          "'이(가) 번역되었습니다.",
        some ("`" ++ origMacro ++ "`"), some ("`" ++ transMacro ++ "`"), none⟩] := by
    unfold macroCorruptionIssue
    rw [hname]
    try dsimp only
    rw [if_neg (by simpa using hwl), hfirst]
  refine ⟨hone, ?_⟩
  unfold checkMacroCorruption
  try dsimp only
  rw [if_pos hlen]
  apply (mem_foldr_append _ _ _).2
  refine ⟨(origMacro, transMacro), hpair, ?_⟩
  rw [hone]
  exact List.mem_singleton.2 rfl

/-- C5 witness: the scenario — source `<<npc "Great Hawk">>` translated to
`<<npc "거대 매">>` yields exactly one Critical issue citing `거대 매`. -/
theorem macro_corruption_first_literal_witness :
    macroCorruptionIssue "<<npc \"Great Hawk\">>" "<<npc \"거대 매\">>" 1 =
      [⟨1, "CRITICAL", "매크로 코드 손상",
        "번역 금지 의심 매크로(`" ++ "npc" ++ "`) 내부의 코드 식별자 '" ++ "거대 매" ++
          "'이(가) 번역되었습니다.",
        some ("`" ++ "<<npc \"Great Hawk\">>" ++ "`"),
        some ("`" ++ "<<npc \"거대 매\">>" ++ "`"), none⟩] ∧
    checkMacroCorruption "<<npc \"Great Hawk\">>" "<<npc \"거대 매\">>" 1 =
      macroCorruptionIssue "<<npc \"Great Hawk\">>" "<<npc \"거대 매\">>" 1 :=
  ⟨(macro_corruption_first_literal "<<npc \"Great Hawk\">>" "<<npc \"거대 매\">>" 1
      "<<npc \"Great Hawk\">>" "<<npc \"거대 매\">>" "npc" "거대 매"
      (by decide) (by decide) (by decide) (by decide) (by decide)).1,
    by decide⟩

/-! ## Claim C7 -/

/-- C7 counterexample: the candidate line ` hello world` (one leading space)
is PureText, Korean-free, fully English, and **not** byte-identical to the
source line `hello world`; the claim then demands severity Info, but the
check compares the lines after `strip()` and raises Warning. -/
theorem untranslated_warning_without_byte_identity :
    classifyLine " hello world" = "PURE_TEXT" ∧
    hasKorean (getPureText " hello world") = false ∧
    (" hello world" : String) ≠ "hello world" ∧
    (checkUntranslatedContent "hello world" " hello world" 1 true).map Issue.severity =
      ["WARNING"] := by
  decide

/-- C7 (amended): for a PureText/MixedContent candidate line whose residue
contains no Korean, has at least one word, and whose ascii-only non-numeric
word fraction reaches the 0.8 threshold, exactly one untranslated-content
issue is raised, and its severity is Warning exactly when the pair is
structurally sound and the candidate equals the source after stripping
leading/trailing whitespace (not only when byte-identical); otherwise Info. -/
theorem untranslated_severity_by_stripped_equality
    (originalLine translatedLine : String) (lineNum : Nat) (isSound : Bool)
    (hres : pyStrip (getPureText translatedLine) ≠ "")
    (hkor : hasKorean (getPureText translatedLine) = false)
    (hwords : wordTokens (getPureText translatedLine) ≠ [])
    (hratio : 4 * (wordTokens (getPureText translatedLine)).length ≤
      5 * ((wordTokens (getPureText translatedLine)).filter
        (fun w => englishOnly w && !pyIsDigit w)).length) :
    checkUntranslatedContent originalLine translatedLine lineNum isSound =
      [⟨lineNum,
        if isSound && pyStrip originalLine = pyStrip translatedLine then "WARNING"
        else "INFO",
        "미번역 의심 (콘텐츠)",
        "이 라인은 번역이 누락되었거나(원본과 동일), 대부분이 영어로 구성되어 검토가 필요합니다.",
        some originalLine, some translatedLine, none⟩] := by
  unfold checkUntranslatedContent
  try dsimp only
  rw [if_neg (by simp [hres, hkor])]
  rw [if_neg (by simpa [List.isEmpty_iff] using hwords)]
  rw [if_pos hratio]

/-- C7 witness: a structurally sound pair equal only after stripping gets
Warning through the amended rule. -/
theorem untranslated_severity_by_stripped_equality_witness :
    pyStrip (getPureText " hello world again") ≠ "" ∧
    checkUntranslatedContent "hello world again" " hello world again" 2 true =
      [⟨2,
        if true && pyStrip "hello world again" = pyStrip " hello world again" then "WARNING"
        else "INFO",
        "미번역 의심 (콘텐츠)",
        "이 라인은 번역이 누락되었거나(원본과 동일), 대부분이 영어로 구성되어 검토가 필요합니다.",
        some "hello world again", some " hello world again", none⟩] :=
  ⟨by decide,
    untranslated_severity_by_stripped_equality "hello world again" " hello world again" 2 true
      (by decide) (by decide) (by decide) (by decide)⟩

/-! ## Claim C8 -/

/-- C8: For a structurally sound, content-bearing line pair where a glossary
term occurs in the source residue but its mandated target value appears in the
candidate residue neither as a standalone token of the morphological
tokenizer nor as a literal substring: an Info "glossary not applied" issue is
raised when the source term is still present case-insensitively in the
candidate residue, and a Warning "glossary term mistranslated or missing"
issue when it is absent. -/
theorem glossary_term_outcomes (glossary : List (String × String))
    (tokenize : String → List String) (originalLine translatedLine : String)
    (lineNum : Nat) (engKey korValue : String)
    (hg : glossary ≠ [])
    (hpo : pyStrip (getPureText originalLine) ≠ "")
    (hkey : engKey ∈ glossary.map Prod.fst)
    (hsub : pyContains (getPureText originalLine) engKey = true)
    (hval : glossaryGet glossary engKey = some korValue)
    (hvne : korValue ≠ "")
    (hmorph : korValue ∉ tokenize (getPureText translatedLine))
    (hnotsub : pyContains (getPureText translatedLine) korValue = false) :
    (pyContains (pyLower (getPureText translatedLine)) (pyLower engKey) = true →
      (⟨lineNum, "INFO", "용어집 미적용",
        "용어집 단어 '" ++ engKey ++ "'가 번역되지 않고 원문에 남아있습니다.",
        some originalLine, some translatedLine, none⟩ : Issue) ∈
        checkGlossaryComplianceNlp glossary tokenize originalLine translatedLine lineNum) ∧
    (pyContains (pyLower (getPureText translatedLine)) (pyLower engKey) = false →
      (⟨lineNum, "WARNING", "용어집 오역/누락 의심",
        "용어집 단어 '" ++ engKey ++ "'의 번역 '" ++ korValue ++
          "'이(가) 누락되었거나 다른 단어로 번역된 것 같습니다.",
        some originalLine, some translatedLine, none⟩ : Issue) ∈
        checkGlossaryComplianceNlp glossary tokenize originalLine translatedLine lineNum) := by
  have hfound : engKey ∈ (glossary.map Prod.fst).filter
      (fun k => pyContains (getPureText originalLine) k) :=
    List.mem_filter.2 ⟨hkey, hsub⟩
  have hgo : ∀ issue ∈ glossaryIssueFor glossary (tokenize (getPureText translatedLine))
      (getPureText translatedLine) originalLine translatedLine lineNum engKey,
      issue ∈ checkGlossaryComplianceNlp glossary tokenize originalLine translatedLine
        lineNum := by
    intro issue hissue
    unfold checkGlossaryComplianceNlp
    try dsimp only
    rw [if_neg (by simpa [List.isEmpty_iff] using hg)]
    rw [if_neg hpo]
    rw [if_neg (by simpa [List.isEmpty_iff] using List.ne_nil_of_mem hfound)]
    exact (mem_foldr_append _ _ _).2 ⟨engKey, hfound, hissue⟩
  have hcond : (!(tokenize (getPureText translatedLine)).contains korValue &&
      !pyContains (getPureText translatedLine) korValue) = true := by
    simp [hnotsub, hmorph]
  constructor
  · intro hlow
    apply hgo
    unfold glossaryIssueFor
    rw [hval]
    try dsimp only
    rw [if_neg hvne, if_pos hcond, if_pos hlow]
    exact List.mem_singleton.2 rfl
  · intro hlow
    apply hgo
    unfold glossaryIssueFor
    rw [hval]
    try dsimp only
    rw [if_neg hvne, if_pos hcond, if_neg (by simp [hlow])]
    exact List.mem_singleton.2 rfl

/-- C8 witness: glossary entry `Hawk : 매`, source line containing `Hawk`,
candidate containing `호크` but not `매` (neither as a token nor as a
substring) — one Warning "glossary term mistranslated or missing", and it is
the only issue the glossary check raises on this pair. -/
theorem glossary_term_outcomes_witness :
    pyContains (pyLower (getPureText "그 호크는 난다"))
      (pyLower "Hawk") = false ∧
    (⟨1, "WARNING", "용어집 오역/누락 의심",
      "용어집 단어 '" ++ "Hawk" ++ "'의 번역 '" ++ "매" ++
        "'이(가) 누락되었거나 다른 단어로 번역된 것 같습니다.",
      some "The Hawk flies", some "그 호크는 난다", none⟩ : Issue) ∈
      checkGlossaryComplianceNlp (buildGlossary ["Hawk : 매"])
        (fun _ => ["그", "호크", "는", "난다"]) "The Hawk flies" "그 호크는 난다" 1 ∧
    (checkGlossaryComplianceNlp (buildGlossary ["Hawk : 매"])
        (fun _ => ["그", "호크", "는", "난다"]) "The Hawk flies" "그 호크는 난다" 1).map
      Issue.severity = ["WARNING"] :=
  ⟨by decide,
    (glossary_term_outcomes (buildGlossary ["Hawk : 매"])
      (fun _ => ["그", "호크", "는", "난다"]) "The Hawk flies" "그 호크는 난다" 1
      "Hawk" "매" (by decide) (by decide) (by decide) (by decide) (by decide) (by decide)
      (by decide) (by decide)).2 (by decide),
    by decide⟩

/-! ## Claim C1 -/

/-- C1 counterexample: swapping two lines that each carry a distinct
variable. The pair is declared structurally sound, line 1's variable sets
differ between source and candidate (`{$a}` vs `{$b}`), yet a full
validation run raises **no** issue at all — there is no per-line variable
check, and the global set comparison sees identical whole-document sets. -/
theorem per_line_variable_swap_raises_nothing :
    (checkLineCountAndStructure ["$a 안", "$b 안"] ["$b 안", "$a 안"]).1 = true ∧
    sameSetStr (findVariables "$a 안") (findVariables "$b 안") = false ∧
    runAllChecks [] (fun _ => []) ["$a 안", "$b 안"] ["$b 안", "$a 안"] = [] := by
  decide

/-- C1 (amended): variable references are checked only globally: a full
validation run contains exactly one variable-consistency issue when the
variable multisets of the `"\n"`-joined documents differ as sets, and zero
otherwise, and any such issue is Critical and carries line number 0 — no
per-line comparison of variable sets is performed. -/
theorem variables_checked_only_globally (glossary : List (String × String))
    (tokenize : String → List String) (origLines transLines : List String) :
    ((runAllChecks glossary tokenize origLines transLines).filter
        (fun i => i.itype == "전역 변수 불일치")).length =
      (if sameSetStr (findVariables (String.intercalate "\n" origLines))
          (findVariables (String.intercalate "\n" transLines)) then 0 else 1) ∧
    ∀ issue ∈ runAllChecks glossary tokenize origLines transLines,
      issue.itype = "전역 변수 불일치" →
        issue.line_num = 0 ∧ issue.severity = "CRITICAL" := by
  constructor
  · unfold runAllChecks
    try dsimp only
    rw [List.filter_append, List.filter_append, List.filter_append]
    have h1 : (checkLineCountAndStructure origLines transLines).2.filter
        (fun i => i.itype == "전역 변수 불일치") = [] := by
      rw [List.filter_eq_nil_iff]
      intro issue hmem
      rcases mem_checkLineCountAndStructure_itype hmem with h | h <;>
        simp [h]
    have h2 : (checkCoreIdentifiers origLines transLines).filter
        (fun i => i.itype == "전역 변수 불일치") = [] := by
      rw [List.filter_eq_nil_iff]
      intro issue hmem
      rcases mem_checkCoreIdentifiers_itype hmem with h | h <;>
        simp [h]
    have h3 : (checkGlobalVariableConsistency origLines transLines).filter
        (fun i => i.itype == "전역 변수 불일치") =
        checkGlobalVariableConsistency origLines transLines := by
      rw [List.filter_eq_self]
      intro issue hmem
      simp [(mem_checkGlobalVariableConsistency hmem).1]
    have h4 : (checkAllLines glossary tokenize origLines transLines
        (checkLineCountAndStructure origLines transLines).1).filter
        (fun i => i.itype == "전역 변수 불일치") = [] := by
      rw [List.filter_eq_nil_iff]
      intro issue hmem
      have := mem_checkAllLinesAux_itype hmem
      simp [this]
    rw [h1, h2, h3, h4]
    simp [length_checkGlobalVariableConsistency]
  · intro issue hmem hitype
    unfold runAllChecks at hmem
    try dsimp only at hmem
    rcases List.mem_append.1 hmem with hL | h4
    · rcases List.mem_append.1 hL with hL2 | h3
      · rcases List.mem_append.1 hL2 with h1 | h2
        · rcases mem_checkLineCountAndStructure_itype h1 with h | h <;>
            rw [hitype] at h <;> exact absurd h (by decide)
        · rcases mem_checkCoreIdentifiers_itype h2 with h | h <;>
            rw [hitype] at h <;> exact absurd h (by decide)
      · exact (mem_checkGlobalVariableConsistency h3).2
    · exact absurd hitype (mem_checkAllLinesAux_itype h4)

/-! ## Claim C2 -/

/-- C2 counterexample: deleting exactly the second line of
`["a", "b", "a", "a"]` (so the candidate is otherwise identical to the
source) yields **two** structural-mismatch issues, not one, and their line
numbers are 1 and 5 — neither equals 2, the 1-based index of the first
diverging source line. -/
theorem one_line_deletion_misreported :
    (["a", "b", "a", "a"] : List String).eraseIdx 1 = ["a", "a", "a"] ∧
    (["a", "b", "a", "a"] : List String).getD 0 "" = (["a", "a", "a"] : List String).getD 0 "" ∧
    (["a", "b", "a", "a"] : List String).getD 1 "" ≠ (["a", "a", "a"] : List String).getD 1 "" ∧
    ((checkLineCountAndStructure ["a", "b", "a", "a"] ["a", "a", "a"]).2.filter
        (fun i => i.itype == "구조적 불일치 (줄 삭제/추가)")).map Issue.line_num = [1, 5] := by
  decide

/-- C2 (amended): when the candidate is the source with exactly one line
removed, the aligner declares the pair unsound, reports the line-count issue
first, and then reports exactly one Critical structural-mismatch issue per
insert or delete opcode of the computed `SequenceMatcher` diff of the two
documents — whose replay provably rebuilds the candidate — rather than one
issue located at the first diverging source line. -/
theorem one_fewer_line_alignment (origLines transLines : List String) (k : Nat)
    (hk : k < origLines.length) (h : transLines = origLines.eraseIdx k) :
    (checkLineCountAndStructure origLines transLines).1 = false ∧
    (checkLineCountAndStructure origLines transLines).2.head? =
      some (lineCountIssue origLines transLines) ∧
    ((checkLineCountAndStructure origLines transLines).2.filter
        (fun i => i.itype == "구조적 불일치 (줄 삭제/추가)")).length =
      ((getOpcodes origLines transLines).filter insDelOp).length ∧
    replayOpcodes origLines transLines (getOpcodes origLines transLines) = transLines := by
  have hlen : transLines.length = origLines.length - 1 := by
    rw [h, List.length_eraseIdx]
    simp [hk]
  have hne : ¬ origLines.length = transLines.length := by omega
  refine ⟨?_, ?_, ?_, replay_getOpcodes origLines transLines⟩
  · unfold checkLineCountAndStructure
    rw [if_neg hne]
  · unfold checkLineCountAndStructure
    rw [if_neg hne]
    rfl
  · unfold checkLineCountAndStructure
    rw [if_neg hne]
    dsimp only
    rw [List.filter_cons, if_neg (by simp [lineCountIssue])]
    have hself : ((getOpcodes origLines transLines).filterMap
        (structuralIssueOf origLines transLines)).filter
        (fun i => i.itype == "구조적 불일치 (줄 삭제/추가)") =
        (getOpcodes origLines transLines).filterMap
          (structuralIssueOf origLines transLines) := by
      rw [List.filter_eq_self]
      intro issue hmem
      rcases List.mem_filterMap.1 hmem with ⟨op, -, hop⟩
      simp [(mem_structuralIssueOf_itype hop).1]
    rw [hself]
    exact length_filterMap_eq_length_filter _ _
      (structuralIssueOf_isSome origLines transLines) _

/-- C2 witness: the amended statement at `["x", "y"]` with line 1 removed. -/
theorem one_fewer_line_alignment_witness :
    0 < (["x", "y"] : List String).length ∧
    (["y"] : List String) = (["x", "y"] : List String).eraseIdx 0 ∧
    (checkLineCountAndStructure ["x", "y"] ["y"]).1 = false ∧
    replayOpcodes ["x", "y"] ["y"] (getOpcodes ["x", "y"] ["y"]) = ["y"] :=
  ⟨by decide, by decide,
    (one_fewer_line_alignment ["x", "y"] ["y"] 0 (by decide) (by decide)).1,
    (one_fewer_line_alignment ["x", "y"] ["y"] 0 (by decide) (by decide)).2.2.2⟩

/-! ## Claim C4 -/

/-- C4 counterexample: the pair obtained from `["a", "b", "a", "a", "b"]` by
deleting its two `"b"` lines differs only by deletions of whole lines, yet
the computed diff is one delete run `[a, b]`, an equal run, and a replace
run — so only **one** structural issue is raised (not one per ground-truth
deletion run) and the lines it cites (`a`, `b`) are not the ground-truth
deleted lines (`b`, `b`).  Moreover an equal-length pair that differs by a
deletion plus an insertion (`["a", "b"]` vs `["b", "c"]`) raises **zero**
structural issues. -/
theorem deletiononly_pair_misreported :
    ((["a", "b", "a", "a", "b"] : List String).eraseIdx 4).eraseIdx 1 = ["a", "a", "a"] ∧
    (["a", "b", "a", "a", "b"] : List String).count "b" = 2 ∧
    (["a", "a", "a"] : List String).count "b" = 0 ∧
    getOpcodes ["a", "b", "a", "a", "b"] ["a", "a", "a"] =
      [⟨.delete, 0, 2, 0, 0⟩, ⟨.equal, 2, 4, 0, 2⟩, ⟨.replace, 4, 5, 2, 3⟩] ∧
    ((checkLineCountAndStructure ["a", "b", "a", "a", "b"] ["a", "a", "a"]).2.filter
        (fun i => i.itype == "구조적 불일치 (줄 삭제/추가)")).length = 1 ∧
    (["b", "c"] : List String) = (["a", "b"] : List String).eraseIdx 0 ++ ["c"] ∧
    checkLineCountAndStructure ["a", "b"] ["b", "c"] = (true, []) := by
  decide

/-- C4 (amended): the aligner reports runs of the diff it computes, not of
the ground-truth edit: on equal line counts it reports nothing; on unequal
counts its issue list is the line-count issue followed by exactly one
Critical issue per insert or delete opcode of the computed `SequenceMatcher`
diff (replace and equal opcodes yield none), each located at the opcode's
source start line, and replaying that computed diff rebuilds the candidate. -/
theorem alignment_reports_computed_runs (origLines transLines : List String) :
    (origLines.length = transLines.length →
      checkLineCountAndStructure origLines transLines = (true, [])) ∧
    (origLines.length ≠ transLines.length →
      (checkLineCountAndStructure origLines transLines).2 =
        lineCountIssue origLines transLines ::
          (getOpcodes origLines transLines).filterMap
            (structuralIssueOf origLines transLines) ∧
      ((getOpcodes origLines transLines).filterMap
          (structuralIssueOf origLines transLines)).length =
        ((getOpcodes origLines transLines).filter insDelOp).length ∧
      (∀ op ∈ getOpcodes origLines transLines, insDelOp op = false →
        structuralIssueOf origLines transLines op = none) ∧
      (∀ op ∈ getOpcodes origLines transLines, insDelOp op = true →
        ∃ issue, structuralIssueOf origLines transLines op = some issue ∧
          issue ∈ (checkLineCountAndStructure origLines transLines).2 ∧
          issue.severity = "CRITICAL" ∧ issue.line_num = op.i1 + 1)) ∧
    replayOpcodes origLines transLines (getOpcodes origLines transLines) = transLines := by
  refine ⟨?_, ?_, replay_getOpcodes origLines transLines⟩
  · intro h
    unfold checkLineCountAndStructure
    rw [if_pos h]
  · intro hne
    refine ⟨?_, length_filterMap_eq_length_filter _ _
      (structuralIssueOf_isSome origLines transLines) _, ?_, ?_⟩
    · unfold checkLineCountAndStructure
      rw [if_neg hne]
    · intro op _ hop
      cases htag : op.tag
      · simp [structuralIssueOf, htag]
      · exfalso
        simp [insDelOp, htag] at hop
      · exfalso
        simp [insDelOp, htag] at hop
      · simp [structuralIssueOf, htag]
    · intro op hmem hop
      have hsome : (structuralIssueOf origLines transLines op).isSome = true := by
        rw [structuralIssueOf_isSome]
        exact hop
      rcases Option.isSome_iff_exists.1 hsome with ⟨issue, hissue⟩
      refine ⟨issue, hissue, ?_, (mem_structuralIssueOf_itype hissue).2.1,
        (mem_structuralIssueOf_itype hissue).2.2⟩
      unfold checkLineCountAndStructure
      rw [if_neg hne]
      dsimp only
      exact List.mem_cons_of_mem _ (List.mem_filterMap.2 ⟨op, hmem, hissue⟩)

/-- C4 witness: the amended statement at `["p", "q", "r"]` vs `["p", "r"]`
(line counts differ) — the issue list has the computed shape and the
computed diff replays to the candidate. -/
theorem alignment_reports_computed_runs_witness :
    (checkLineCountAndStructure ["p", "q", "r"] ["p", "r"]).2 =
      lineCountIssue ["p", "q", "r"] ["p", "r"] ::
        (getOpcodes ["p", "q", "r"] ["p", "r"]).filterMap
          (structuralIssueOf ["p", "q", "r"] ["p", "r"]) ∧
    replayOpcodes ["p", "q", "r"] ["p", "r"] (getOpcodes ["p", "q", "r"] ["p", "r"]) =
      ["p", "r"] :=
  ⟨((alignment_reports_computed_runs ["p", "q", "r"] ["p", "r"]).2.1 (by decide)).1,
    (alignment_reports_computed_runs ["p", "q", "r"] ["p", "r"]).2.2⟩

end TweeValidator
